import Mathlib

/-!
Verification of the ciao controller datastore
(`ciao-controller/internal/datastore/datastore.go`).

Go `map`s are embedded as association lists (`List (κ × α)`): `lookupA` is map
indexing, `insertA` is assignment (replacing the binding in place when the key
is present, appending otherwise), `eraseA` is `delete`, and `sizeA` is `len`.
Reads of a missing key yield the zero value (`lookupD`); a Go *assignment* to
an entry of a `nil` map and a dereference of a `nil` pointer are runtime
panics, modelled by explicit `panicked` results that carry the heap state at
the moment of the panic.  `time.Time` values are embedded as `Int` seconds,
IPv4 addresses as four byte-sized naturals (`IP4`); a string that
`net.ParseIP` rejects is embedded as `none : Option IP4`.  Calls into the
`persistentStore` interface are external collaborators: they are assumed to
succeed and their only modelled observable is the event log appended to by
`logEvent`.
-/

namespace Ciao

/-- First binding for a key in an association list (Go map indexing). -/
def lookupA {κ α : Type} [DecidableEq κ] : List (κ × α) → κ → Option α
  | [], _ => none
  | (k, v) :: rest, key => if k = key then some v else lookupA rest key

/-- Map read with Go zero-value default. -/
def lookupD {κ α : Type} [DecidableEq κ] (m : List (κ × α)) (k : κ) (d : α) : α :=
  (lookupA m k).getD d

/-- Go map assignment `m[k] = v`: replace the binding in place, else append. -/
def insertA {κ α : Type} [DecidableEq κ] : List (κ × α) → κ → α → List (κ × α)
  | [], key, val => [(key, val)]
  | (k, v) :: rest, key, val =>
    if k = key then (key, val) :: rest else (k, v) :: insertA rest key val

/-- Go `delete(m, k)`. -/
def eraseA {κ α : Type} [DecidableEq κ] : List (κ × α) → κ → List (κ × α)
  | [], _ => []
  | (k, v) :: rest, key =>
    if k = key then eraseA rest key else (k, v) :: eraseA rest key

/-- Go `len(m)`. -/
def sizeA {κ α : Type} (m : List (κ × α)) : Nat := m.length


/-! ## Data model (`types` package, as used by `datastore.go`) -/

/-- An IPv4 address as produced by `net.IPv4` / consumed via `To4()`. -/
structure IP4 where
  b0 : Nat
  b1 : Nat
  b2 : Nat
  b3 : Nat
deriving DecidableEq, Repr

/-- One entry of `types.Tenant.Resources`. -/
structure Resource where
  rtype : Int
  rname : String
  limit : Int
  usage : Int
deriving DecidableEq, Repr

/-- `types.Instance` (fields used by the datastore core).  `ipAddress = none`
models an `IPAddress` string rejected by `net.ParseIP`. -/
structure Instance where
  id : String
  tenantID : String
  nodeID : String
  state : String
  ipAddress : Option IP4
  usage : List (String × Int)
deriving DecidableEq, Repr

/-- `payloads.CiaoServerStats` (the per-instance last-known-stats record). -/
structure ServerStats where
  id : String
  tenantID : String
  nodeID : String
  status : String
  timestamp : Int
  vcpuUsage : Int
  memUsage : Int
  diskUsage : Int
deriving DecidableEq, Repr

/-- `payloads.CiaoUsage`: one tenant usage sample (timestamp in seconds). -/
structure CiaoUsage where
  vcpu : Int
  memory : Int
  disk : Int
  timestamp : Int
deriving DecidableEq, Repr

/-- `types.BlockState`: the four-state volume lifecycle. -/
inductive BlockState where
  | available
  | attaching
  | inUse
  | detaching
deriving DecidableEq, Repr

/-- `types.BlockData` (fields used by the datastore core). -/
structure BlockData where
  id : String
  tenantID : String
  state : BlockState
deriving DecidableEq, Repr

/-- `types.StorageAttachment`. -/
structure StorageAttachment where
  id : String
  instanceID : String
  blockID : String
deriving DecidableEq, Repr

/-- The datastore-private `tenant` struct (`types.Tenant` plus cache fields). -/
structure Tenant where
  cnciID : String
  cnciIP : String
  cnciMAC : String
  resources : List Resource
  network : List (Nat × List (Nat × Bool))
  subnets : List Nat
  instances : List (String × Instance)
  devices : List (String × BlockData)
deriving DecidableEq, Repr

/-- The datastore-private `node` struct. -/
structure Node where
  id : String
  hostname : String
  instances : List (String × Instance)
deriving DecidableEq, Repr

/-- The in-memory `Datastore` state.  `eventLog` records the arguments of
every `db.logEvent` call (the persistent store's observable). -/
structure DS where
  tenants : List (String × Tenant)
  allSubnets : List (Nat × Bool)
  instances : List (String × Instance)
  instanceLastStat : List (String × ServerStats)
  nodes : List (String × Node)
  tenantUsage : List (String × List CiaoUsage)
  blockDevices : List (String × BlockData)
  attachments : List (String × StorageAttachment)
  instanceVolumes : List ((String × String) × String)
  cnciAddedChans : List String
  eventLog : List (String × String × String)
deriving DecidableEq, Repr

/-- Outcome of a Go call that can terminate the goroutine with a runtime
panic; the surrounding state at the moment of the panic is returned alongside
by each operation. -/
inductive GoX (α : Type) where
  | panicked (msg : String)
  | ret (a : α)
deriving DecidableEq, Repr

/-- `payloads.StartFailureReason` (the eleven values `StartFailure` names). -/
inductive StartFailureReason where
  | fullCloud
  | fullComputeNode
  | noComputeNodes
  | noNetworkNodes
  | invalidPayload
  | invalidData
  | imageFailure
  | networkFailure
  | launchFailure
  | alreadyRunning
  | instanceExists
deriving DecidableEq, Repr

/-! ## IP allocator (`AllocateTenantIP` / `ReleaseTenantIP`) -/

/-- Result of `AllocateTenantIP`. -/
inductive ARes where
  | ok (ip : IP4)
  | fail (msg : String)
  | panicked (msg : String)
deriving DecidableEq, Repr

/-- The subnet-reuse scan: `for _, k := range subnets { if len(network[k]) < 253
{ subnetInt = uint16(k) } }` — keeps the *last* subnet (in sorted order) whose
host map has fewer than 253 entries; `uint16(k)` truncates modulo 2^16. -/
def pickSubnet (net : List (Nat × List (Nat × Bool))) (subs : List Nat) : Nat :=
  subs.foldl (fun acc k => if sizeA (lookupD net k []) < 253 then k % 65536 else acc) 0

/-- Body of the new-subnet probe, recursing on the count of candidates left
so that the definition is structurally recursive (kernel-reducible). -/
def probeSubnetAux (allS : List (Nat × Bool)) : Nat → Nat → Option Nat
  | 0, _ => none
  | fuel + 1, i =>
    if lookupD allS i false = false then some i
    else if 8191 ≤ i then none
    else probeSubnetAux allS fuel (i + 1)

/-- The new-subnet linear probe over the process-wide `allSubnets` set.  The
source iterates `subnetBytes` from `{16,0}` (=4096) and declares exhaustion
when the claimed candidate is `{31,255}` (=8191); this is the same loop with
the two bytes fused into `i = b0*256+b1` (the guard `8191 ≤ i` coincides with
`i = 8191` on every value the loop reaches from 4096, and the fuel
`8192 - i` never runs out before that guard fires). -/
def probeSubnet (allS : List (Nat × Bool)) (i : Nat) : Option Nat :=
  probeSubnetAux allS (8192 - i) i

/-- Body of the host probe, recursing on the count of slots left. -/
def probeHostAux (hosts : List (Nat × Bool)) : Nat → Nat → Option Nat
  | 0, _ => none
  | fuel + 1, rest =>
    if lookupD hosts rest false = false then some rest
    else if 255 ≤ rest then none
    else probeHostAux hosts fuel (rest + 1)

/-- The host linear probe: `rest` starts at 2, first slot with `hosts[rest] ==
false` (absent or released) is claimed; reaching 255 with no slot is the
`rand out of host numbers` error (the fuel `256 - rest` never runs out
before that guard fires). -/
def probeHost (hosts : List (Nat × Bool)) (rest : Nat) : Option Nat :=
  probeHostAux hosts (256 - rest) rest

/-- The slice of datastore state `AllocateTenantIP` operates on: the tenant's
`network` and `subnets` plus the process-wide `allSubnets`. -/
structure TNet where
  network : List (Nat × List (Nat × Bool))
  subnets : List Nat
  allSubnets : List (Nat × Bool)
deriving DecidableEq, Repr

/-- The host-claiming tail of `AllocateTenantIP`: `hosts :=
network[subnetInt]`, probe from 2, mark the slot, build the address
`172.s/256.s%256.rest`.  When the subnet has no host map, `hosts` is a nil
map and the claiming assignment `hosts[rest] = true` panics. -/
def hostClaim (st : TNet) (s : Nat) : ARes × TNet :=
  match lookupA st.network s with
  | none => (.panicked "assignment to entry in nil map", st)
  | some hosts =>
    match probeHost hosts 2 with
    | none => (.fail "rand out of host numbers", st)
    | some rest =>
      (.ok ⟨172, s / 256, s % 256, rest⟩,
        { st with network := insertA st.network s (insertA hosts rest true) })

/-- Body of `AllocateTenantIP` (under the tenants lock): sort the tenant's
subnets in place, scan for a reusable one, otherwise probe a fresh subnet
index, then claim a host slot. -/
def allocCore (st : TNet) : ARes × TNet :=
  let subs := List.insertionSort (· ≤ ·) st.subnets
  let s0 := pickSubnet st.network subs
  if s0 = 0 then
    match probeSubnet st.allSubnets 4096 with
    | none => (.fail "Out of subnets", { st with subnets := subs })
    | some i =>
      hostClaim
        { network := insertA st.network i []
          subnets := subs ++ [i]
          allSubnets := insertA st.allSubnets i true } i
  else
    hostClaim { st with subnets := subs } s0

/-- `AllocateTenantIP(tenantID)`: `ds.tenants[tenantID].network` dereferences
a nil `*tenant` when the tenant is not cached. -/
def allocateTenantIP (ds : DS) (tid : String) : ARes × DS :=
  match lookupA ds.tenants tid with
  | none => (.panicked "nil tenant dereference", ds)
  | some t =>
    let r := allocCore ⟨t.network, t.subnets, ds.allSubnets⟩
    (r.1,
      { ds with
        tenants := insertA ds.tenants tid
          { t with network := r.2.network, subnets := r.2.subnets }
        allSubnets := r.2.allSubnets })

/-- `ReleaseTenantIP(tenantID, ip)`: parse the address (`none` = unparsable
string), recover the subnet from the middle two octets, clear the in-memory
bit.  `network[subnet][host] = false` on a subnet the tenant never allocated
assigns into a nil map and panics; a missing tenant skips the cache update. -/
def releaseTenantIP (ds : DS) (tid : String) (ip : Option IP4) : DS × GoX (Option String) :=
  match ip with
  | none => (ds, .ret (some "Invalid IPv4 Address"))
  | some a =>
    let sn := a.b1 * 256 + a.b2
    match lookupA ds.tenants tid with
    | none => (ds, .ret none)
    | some t =>
      match lookupA t.network sn with
      | none => (ds, .panicked "assignment to entry in nil map")
      | some hosts =>
        ({ ds with
            tenants := insertA ds.tenants tid
              { t with network := insertA t.network sn (insertA hosts a.b3 false) } },
          .ret none)

/-! ## Instance lifecycle (`AddInstance` / `deleteInstance` / `StartFailure`) -/

/-- The per-resource usage loop of `AddInstance`: `tenant.Resources[i].Usage
+= val` at the first resource whose `Rname` matches, then `break`. -/
def addUsageRes : List Resource → String → Int → List Resource
  | [], _, _ => []
  | r :: rest, n, v =>
    if r.rname = n then { r with usage := r.usage + v } :: rest
    else r :: addUsageRes rest n v

/-- The per-resource usage loop of `deleteInstance`: `Usage -= val` at the
first matching `Rname`. -/
def subUsageRes : List Resource → String → Int → List Resource
  | [], _, _ => []
  | r :: rest, n, v =>
    if r.rname = n then { r with usage := r.usage - v } :: rest
    else r :: subUsageRes rest n v

/-- `Usage++` at the first resource with `Rtype == 1` (the reserved instance
count). -/
def incCount : List Resource → List Resource
  | [] => []
  | r :: rest =>
    if r.rtype = 1 then { r with usage := r.usage + 1 } :: rest
    else r :: incCount rest

/-- `Usage--` at the first resource with `Rtype == 1`. -/
def decCount : List Resource → List Resource
  | [] => []
  | r :: rest =>
    if r.rtype = 1 then { r with usage := r.usage - 1 } :: rest
    else r :: decCount rest

/-- `for name, val := range instance.Usage` applying `addUsageRes`. -/
def addUsageAll (rs : List Resource) (u : List (String × Int)) : List Resource :=
  u.foldl (fun rs p => addUsageRes rs p.1 p.2) rs

/-- `for name, val := range i.Usage` applying `subUsageRes`. -/
def subUsageAll (rs : List Resource) (u : List (String × Int)) : List Resource :=
  u.foldl (fun rs p => subUsageRes rs p.1 p.2) rs

/-- `AddInstance(instance)`: insert into the global instance map, seed the
last-known-stats record (`Timestamp: time.Now()` passed as `now`), then — only
when the owning tenant is cached — bump its usage counters and tenant
instance map.  Always returns `nil` and persists asynchronously. -/
def addInstance (ds : DS) (now : Int) (inst : Instance) : DS × Option String :=
  let ds1 := { ds with
    instances := insertA ds.instances inst.id inst
    instanceLastStat := insertA ds.instanceLastStat inst.id
      { id := inst.id, tenantID := inst.tenantID, nodeID := inst.nodeID
        status := inst.state, timestamp := now
        vcpuUsage := 0, memUsage := 0, diskUsage := 0 } }
  match lookupA ds1.tenants inst.tenantID with
  | none => (ds1, none)
  | some t =>
    ({ ds1 with
        tenants := insertA ds1.tenants inst.tenantID
          { t with
            resources := incCount (addUsageAll t.resources inst.usage)
            instances := insertA t.instances inst.id inst } },
      none)

/-- `deleteInstance(instanceID)`: erase the last-stats record, pop the
instance from the global map (a missing instance leaves `i` nil and the later
`i.TenantID` dereference panics), undo the tenant usage bumps (the
`delete(tenant.instances, ...)` precedes the source's nil check, so a missing
tenant panics), drop the node index entry (a node id absent from `ds.nodes`
panics), then `db.removeInstance` and `ReleaseTenantIP`. -/
def deleteInstance (ds : DS) (iid : String) : DS × GoX (Option String) :=
  let ds0 := { ds with instanceLastStat := eraseA ds.instanceLastStat iid }
  match lookupA ds0.instances iid with
  | none =>
    ({ ds0 with instances := eraseA ds0.instances iid }, .panicked "nil instance dereference")
  | some i =>
    let ds1 := { ds0 with instances := eraseA ds0.instances iid }
    match lookupA ds1.tenants i.tenantID with
    | none => (ds1, .panicked "nil tenant dereference")
    | some t =>
      let t1 := { t with
        instances := eraseA t.instances iid
        resources := decCount (subUsageAll t.resources i.usage) }
      let ds2 := { ds1 with tenants := insertA ds1.tenants i.tenantID t1 }
      if i.nodeID = "" then
        releaseTenantIP ds2 i.tenantID i.ipAddress
      else
        match lookupA ds2.nodes i.nodeID with
        | none => (ds2, .panicked "nil node dereference")
        | some n =>
          let ds3 := { ds2 with
            nodes := insertA ds2.nodes i.nodeID { n with instances := eraseA n.instances iid } }
          releaseTenantIP ds3 i.tenantID i.ipAddress

/-- The reasons for which `StartFailure` deletes the instance (the first
eight cases of its `switch`); the remaining three leave it alone. -/
def startFailureFatal : StartFailureReason → Bool
  | .fullCloud | .fullComputeNode | .noComputeNodes | .noNetworkNodes
  | .invalidPayload | .invalidData | .imageFailure | .networkFailure => true
  | .launchFailure | .alreadyRunning | .instanceExists => false

/-- `removeTenantCNCI`: clear the tenant's CNCI id and IP in the cache. -/
def removeTenantCNCI (ds : DS) (tid : String) : DS × Option String :=
  match lookupA ds.tenants tid with
  | none => (ds, some "Tenant not found")
  | some t =>
    ({ ds with tenants := insertA ds.tenants tid { t with cnciID := "", cnciIP := "" } }, none)

/-- `StartFailure(instanceID, reason)`: the CNCI branch rolls back the
tenant's CNCI, logs, and signals the waiter channel (the rendezvous send
itself is a concurrency primitive and is not modelled beyond deregistering
the channel); otherwise the instance is fetched, deleted for the fatal
reasons, and a tenant-scoped error event is logged. -/
def startFailure (ds : DS) (iid : String) (reason : StartFailureReason) :
    DS × GoX (Option String) :=
  match ds.tenants.find? (fun p => p.2.cnciID == iid) with
  | some p =>
    let r := removeTenantCNCI ds p.1
    let ds2 := { r.1 with
      eventLog := r.1.eventLog ++ [(p.1, "error", "CNCI Start Failure " ++ iid)]
      cnciAddedChans := r.1.cnciAddedChans.filter (fun c => c ≠ p.1) }
    (ds2, .ret r.2)
  | none =>
    match lookupA ds.instances iid with
    | none => (ds, .ret (some "Instance Not Found"))
    | some i =>
      let step :=
        if startFailureFatal reason then deleteInstance ds iid
        else (ds, .ret none)
      match step.2 with
      | .panicked m => (step.1, .panicked m)
      | .ret _ =>
        ({ step.1 with
            eventLog := step.1.eventLog ++ [(i.tenantID, "error", "Start Failure " ++ iid)] },
          .ret none)

/-! ## Stats / usage aggregation -/

/-- `updateTenantUsageNeeded`: skip deltas that are all zero. -/
def updateTenantUsageNeeded (delta : CiaoUsage) : Bool :=
  if delta.vcpu = 0 ∧ delta.memory = 0 ∧ delta.disk = 0 then false else true

/-- `updateTenantUsage(delta, tenantID)` at wall-clock time `now` (seconds):
append a new cumulative sample unless the last one is younger than the
5-minute sampling interval (`time.Since(last).Minutes() < 5` ⟺
`now - last.timestamp < 300` seconds), in which case the last sample is
overwritten in place keeping its timestamp. -/
def updateTenantUsage (ds : DS) (now : Int) (delta : CiaoUsage) (tid : String) : DS :=
  if updateTenantUsageNeeded delta = false then ds
  else
    let hist := lookupD ds.tenantUsage tid []
    let lastUsage := if hist.length ≠ 0 then hist.getLastD ⟨0, 0, 0, 0⟩ else ⟨0, 0, 0, 0⟩
    let createNew : Bool :=
      if hist.length ≠ 0 ∧ now - lastUsage.timestamp < 300 then false else true
    let newU : CiaoUsage :=
      { vcpu := lastUsage.vcpu + delta.vcpu
        memory := lastUsage.memory + delta.memory
        disk := lastUsage.disk + delta.disk
        timestamp := if createNew then now else lastUsage.timestamp }
    if createNew then
      { ds with tenantUsage := insertA ds.tenantUsage tid (hist ++ [newU]) }
    else
      { ds with tenantUsage := insertA ds.tenantUsage tid (hist.dropLast ++ [newU]) }

/-- `GetTenantUsage(tenantID, start, end)`: early-out on an empty history or
a window entirely off either end, then a linear scan counting samples
strictly before each bound and the slice `tenantUsage[first:last]` (`none`
models the slice-bounds panic when `first > last`, possible only for
`start > end`). -/
def getTenantUsage (ds : DS) (tid : String) (start endT : Int) : Option (List CiaoUsage) :=
  let hs := lookupD ds.tenantUsage tid []
  if hs.length = 0 then some []
  else if (hs.headD ⟨0, 0, 0, 0⟩).timestamp > endT ∨ start > (hs.getLastD ⟨0, 0, 0, 0⟩).timestamp then
    some []
  else
    let first := hs.countP (fun u => decide (start > u.timestamp))
    let last := hs.countP (fun u => decide (endT > u.timestamp))
    if first ≤ last then some ((hs.take last).drop first) else none

/-! ## Storage attachment reconciler -/

/-- `GetBlockDevice(ID)` (`none` = `ErrNoBlockData`). -/
def getBlockDevice (ds : DS) (id : String) : Option BlockData :=
  lookupA ds.blockDevices id

/-- `AddBlockDevice(device)`: update the device map, then
`ds.tenants[device.TenantID].devices` — a nil `*tenant` dereference when the
owner is not cached.  The persistent write is asynchronous. -/
def addBlockDevice (ds : DS) (d : BlockData) : DS × GoX Unit :=
  let ds1 := { ds with blockDevices := insertA ds.blockDevices d.id d }
  match lookupA ds1.tenants d.tenantID with
  | none => (ds1, .panicked "nil tenant dereference")
  | some t =>
    ({ ds1 with
        tenants := insertA ds1.tenants d.tenantID
          { t with devices := insertA t.devices d.id d } },
      .ret ())

/-- `UpdateBlockDevice(data)`: `ErrNoBlockData` for an unknown id, else
`AddBlockDevice`. -/
def updateBlockDevice (ds : DS) (d : BlockData) : DS × GoX (Option String) :=
  match lookupA ds.blockDevices d.id with
  | none => (ds, .ret (some "Block Device not found"))
  | some _ =>
    match addBlockDevice ds d with
    | (ds1, .panicked m) => (ds1, .panicked m)
    | (ds1, .ret _) => (ds1, .ret none)

/-- First loop of `updateStorageAttachments`: for each observed volume with no
`(instance, volume)` link, create an attachment (ids drawn from `fresh`, the
successive `uuid.Generate()` results) and best-effort transition the block
device to `InUse` (a missing device is logged and skipped). -/
def usaAddLoop (iid : String) : DS → List String → List String → (DS × List String) × GoX Unit
  | ds, [], fresh => ((ds, fresh), .ret ())
  | ds, v :: rest, fresh =>
    match lookupA ds.instanceVolumes (iid, v) with
    | some _ => usaAddLoop iid ds rest fresh
    | none =>
      let newID := fresh.headD ""
      let a : StorageAttachment := ⟨newID, iid, v⟩
      let ds1 := { ds with
        attachments := insertA ds.attachments newID a
        instanceVolumes := insertA ds.instanceVolumes (iid, v) newID }
      match getBlockDevice ds1 v with
      | none => usaAddLoop iid ds1 rest fresh.tail
      | some bd =>
        match updateBlockDevice ds1 { bd with state := .inUse } with
        | (ds2, .panicked m) => ((ds2, fresh.tail), .panicked m)
        | (ds2, .ret _) => usaAddLoop iid ds2 rest fresh.tail

/-- Second loop of `updateStorageAttachments`: `for _, ID := range
ds.instanceVolumes` — over the whole process-wide link map, with *no filter on
the owning instance*.  Every attachment whose volume is not in the observed
set `m` is transitioned to `Available` and deleted (a missing block device is
logged and the deletion skipped).  `snapshot` is the link map as the loop
starts; on states where each link's `(instanceID, blockID)` key maps to its
own attachment id, deleting during iteration only removes the entry being
visited, so iterating the snapshot coincides with Go's map iteration. -/
def usaRemoveLoop (m : List String) : DS → List ((String × String) × String) → DS × GoX Unit
  | ds, [] => (ds, .ret ())
  | ds, (_, aid) :: rest =>
    let a := lookupD ds.attachments aid ⟨"", "", ""⟩
    if m.contains a.blockID then usaRemoveLoop m ds rest
    else
      match getBlockDevice ds a.blockID with
      | none => usaRemoveLoop m ds rest
      | some bd =>
        match updateBlockDevice ds { bd with state := .available } with
        | (ds1, .panicked msg) => (ds1, .panicked msg)
        | (ds1, .ret _) =>
          usaRemoveLoop m
            { ds1 with
              attachments := eraseA ds1.attachments aid
              instanceVolumes := eraseA ds1.instanceVolumes (a.instanceID, a.blockID) }
            rest

/-- `updateStorageAttachments(instanceID, volumes)`: add links for newly
observed volumes, then sweep the link table for volumes no longer observed. -/
def updateStorageAttachments (ds : DS) (iid : String) (vols : List String)
    (fresh : List String) : DS × GoX Unit :=
  match usaAddLoop iid ds vols fresh with
  | ((ds1, _), .panicked m) => (ds1, .panicked m)
  | ((ds1, _), .ret _) => usaRemoveLoop vols ds1 ds1.instanceVolumes

/-! ## Proof-side definitions: allocator iteration and its normal form -/

/-- The fresh single-tenant starting state of C2's scenario: a tenant with no
subnets and an empty process-wide claimed-subnet set. -/
def emptyTNet : TNet := ⟨[], [], []⟩

/-- State of the single tenant's allocator slice after `n` consecutive
`AllocateTenantIP` calls with no releases. -/
def allocIter : Nat → TNet
  | 0 => emptyTNet
  | n + 1 => (allocCore (allocIter n)).2

/-- Result of the `n+1`-st consecutive `AllocateTenantIP` call. -/
def allocNth (n : Nat) : ARes := (allocCore (allocIter n)).1

/-- The address the allocator hands out on the `n+1`-st call: subnet
`4096 + n/253` encoded in the middle two octets, host `2 + n%253`. -/
def addrOf (n : Nat) : IP4 :=
  ⟨172, (4096 + n / 253) / 256, (4096 + n / 253) % 256, 2 + n % 253⟩

/-- Host map holding claims for host indices `2 .. r+1`. -/
def partHosts (r : Nat) : List (Nat × Bool) := (List.range' 2 r).map fun h => (h, true)

/-- Subnet list after `n` allocations: `n/253` full subnets plus a partial
one when `n % 253 ≠ 0`. -/
def nfSubnets (n : Nat) : List Nat :=
  List.range' 4096 (n / 253) ++ (if n % 253 = 0 then [] else [4096 + n / 253])

/-- Normal form of the allocator state after `n` allocations from scratch. -/
def nfState (n : Nat) : TNet :=
  ⟨(List.range' 4096 (n / 253)).map (fun s => (s, partHosts 253)) ++
      (if n % 253 = 0 then [] else [(4096 + n / 253, partHosts (n % 253))]),
    nfSubnets n,
    (nfSubnets n).map fun s => (s, true)⟩

/-! ## Proof-side definitions: resource-counter algebra -/

/-- Add `c` to the usage counter of the resource at position `i` (identity
when `i` is out of range). -/
def bumpAt : Nat → Int → List Resource → List Resource
  | _, _, [] => []
  | 0, c, r :: rest => { r with usage := r.usage + c } :: rest
  | n + 1, c, r :: rest => r :: bumpAt n c rest

/-- Position targeted by the `Rname` matching loops. -/
def rnameIdx (rs : List Resource) (n : String) : Nat := rs.findIdx fun r => r.rname == n

/-- Position targeted by the `Rtype == 1` instance-count loops. -/
def rtypeIdx (rs : List Resource) : Nat := rs.findIdx fun r => r.rtype == 1

/-- A batch of usage-counter bumps applied left to right. -/
def bumps (l : List (Nat × Int)) (rs : List Resource) : List Resource :=
  l.foldl (fun rs p => bumpAt p.1 p.2 rs) rs

/-! ## Concrete states for witnesses and counterexamples -/

/-- A tenant record with every field empty. -/
def tenant0 : Tenant := ⟨"", "", "", [], [], [], [], []⟩

/-- A datastore with every map empty. -/
def emptyDS : DS := ⟨[], [], [], [], [], [], [], [], [], [], []⟩

/-- C1's failing input: volume `v1` attached to instance `i1` and volume `v2`
attached to a *different* instance `i2`, both devices `InUse`. -/
def c1DS : DS := { emptyDS with
  tenants := [("t1", tenant0)]
  blockDevices := [("v1", ⟨"v1", "t1", .inUse⟩), ("v2", ⟨"v2", "t1", .inUse⟩)]
  attachments := [("a1", ⟨"a1", "i1", "v1"⟩), ("a2", ⟨"a2", "i2", "v2"⟩)]
  instanceVolumes := [(("i1", "v1"), "a1"), (("i2", "v2"), "a2")] }

/-- C3's failing input: a cached tenant that owns no subnet at all. -/
def c3DS : DS := { emptyDS with tenants := [("t1", tenant0)] }

/-- C3's witness state: subnet 4096 exists and host 5 is claimed. -/
def c3wTenant : Tenant := { tenant0 with network := [(4096, [(5, true)])], subnets := [4096] }

/-- Datastore for C3's witness. -/
def c3wDS : DS := { emptyDS with tenants := [("t1", c3wTenant)] }

/-- C4's failing input, the host map: 253 entries for hosts 2..254, host 2
released (`false`), so only 252 hosts are claimed. -/
def c4hosts : List (Nat × Bool) := (2, false) :: ((List.range' 3 252).map fun h => (h, true))

/-- C4's failing input: one subnet, full by map size but not by claims. -/
def c4Tenant : Tenant := { tenant0 with network := [(4096, c4hosts)], subnets := [4096] }

/-- Datastore for C4's counterexample. -/
def c4DS : DS := { emptyDS with tenants := [("t1", c4Tenant)], allSubnets := [(4096, true)] }

/-- C4's witness state: subnet 4096 holds one claimed host. -/
def c4wTenant : Tenant := { tenant0 with network := [(4096, [(2, true)])], subnets := [4096] }

/-- Datastore for C4's witness. -/
def c4wDS : DS := { emptyDS with tenants := [("t1", c4wTenant)], allSubnets := [(4096, true)] }

/-- Resource table used by lifecycle witnesses: an instance-count resource
and a named one. -/
def w5Res : List Resource := [⟨1, "instances", 10, 3⟩, ⟨2, "vcpus", 20, 4⟩]

/-- Tenant used by lifecycle witnesses. -/
def w5Tenant : Tenant := { tenant0 with resources := w5Res }

/-- Instance used by lifecycle witnesses. -/
def w5Inst : Instance := ⟨"i1", "t1", "", "pending", none, [("vcpus", 2)]⟩

/-- Datastore used by the C5 witness. -/
def w5DS : DS := { emptyDS with tenants := [("t1", w5Tenant)] }

/-- C8's failing input, the instance: owned by the uncached tenant `t1`,
scheduled on node `n1`. -/
def c8Inst : Instance := ⟨"i1", "t1", "n1", "running", none, []⟩

/-- C8's failing input: the instance is cached and indexed under its node,
but its tenant is absent. -/
def c8DS : DS := { emptyDS with
  instances := [("i1", c8Inst)]
  nodes := [("n1", ⟨"n1", "host1", [("i1", c8Inst)]⟩)] }

/-- Well-formed datastore for the C8 witness. -/
def c8wDS : DS := { emptyDS with
  tenants := [("t1", w5Tenant)]
  instances := [("i1", w5Inst)] }

/-- Instance whose tenant is unknown, for the C10 witness. -/
def c10Inst : Instance := ⟨"i9", "ghost", "", "pending", none, []⟩

/-- C7's failing input: one usage sample timestamped exactly at the query's
`end` bound. -/
def c7DS : DS := { emptyDS with tenantUsage := [("t", [⟨0, 0, 0, 10⟩])] }

/-- Ascending three-sample history for the C7 witness. -/
def c7wDS : DS :=
  { emptyDS with tenantUsage := [("t", [⟨1, 1, 1, 0⟩, ⟨2, 2, 2, 400⟩, ⟨3, 3, 3, 800⟩])] }

/-! ## Lemma library: association-list maps -/

@[simp] theorem lookupA_nil {κ α : Type} [DecidableEq κ] (k : κ) :
    lookupA ([] : List (κ × α)) k = none := rfl

@[simp] theorem lookupA_cons {κ α : Type} [DecidableEq κ] (k key : κ) (v : α) (rest) :
    lookupA ((k, v) :: rest) key = if k = key then some v else lookupA rest key := rfl

@[simp] theorem insertA_nil {κ α : Type} [DecidableEq κ] (k : κ) (v : α) :
    insertA ([] : List (κ × α)) k v = [(k, v)] := rfl

@[simp] theorem insertA_cons {κ α : Type} [DecidableEq κ] (k key : κ) (v val : α) (rest) :
    insertA ((k, v) :: rest) key val =
      if k = key then (key, val) :: rest else (k, v) :: insertA rest key val := rfl

@[simp] theorem eraseA_nil {κ α : Type} [DecidableEq κ] (k : κ) :
    eraseA ([] : List (κ × α)) k = [] := rfl

theorem lookupA_insertA_self {κ α : Type} [DecidableEq κ] (m : List (κ × α)) (k : κ) (v : α) :
    lookupA (insertA m k v) k = some v := by
  induction m with
  | nil => simp [insertA, lookupA]
  | cons hd tl ih =>
    obtain ⟨k', v'⟩ := hd
    by_cases h : k' = k <;> simp [insertA, lookupA, h, ih]

theorem lookupA_insertA_ne {κ α : Type} [DecidableEq κ] (m : List (κ × α)) (k k' : κ) (v : α)
    (h : k ≠ k') : lookupA (insertA m k v) k' = lookupA m k' := by
  induction m with
  | nil => simp [insertA, lookupA, h]
  | cons hd tl ih =>
    obtain ⟨k₀, v₀⟩ := hd
    by_cases h0 : k₀ = k
    · subst h0; simp [insertA, lookupA, h]
    · simp [insertA, lookupA, h0, ih]

theorem lookupA_eraseA_self {κ α : Type} [DecidableEq κ] (m : List (κ × α)) (k : κ) :
    lookupA (eraseA m k) k = none := by
  induction m with
  | nil => simp [eraseA]
  | cons hd tl ih =>
    obtain ⟨k₀, v₀⟩ := hd
    by_cases h0 : k₀ = k <;> simp [eraseA, lookupA, h0, ih]

theorem lookupA_eraseA_ne {κ α : Type} [DecidableEq κ] (m : List (κ × α)) (k k' : κ)
    (h : k ≠ k') : lookupA (eraseA m k) k' = lookupA m k' := by
  induction m with
  | nil => simp [eraseA]
  | cons hd tl ih =>
    obtain ⟨k₀, v₀⟩ := hd
    by_cases h0 : k₀ = k
    · subst h0; simp [eraseA, lookupA, h, ih]
    · simp [eraseA, lookupA, h0, ih]

theorem lookupD_insertA_self {κ α : Type} [DecidableEq κ] (m : List (κ × α)) (k : κ) (v d : α) :
    lookupD (insertA m k v) k d = v := by
  simp [lookupD, lookupA_insertA_self]

theorem insertA_insertA_self {κ α : Type} [DecidableEq κ] (m : List (κ × α)) (k : κ) (v w : α) :
    insertA (insertA m k v) k w = insertA m k w := by
  induction m with
  | nil => simp [insertA]
  | cons hd tl ih =>
    obtain ⟨k₀, v₀⟩ := hd
    by_cases h0 : k₀ = k <;> simp [insertA, h0, ih]

theorem eraseA_insertA_self {κ α : Type} [DecidableEq κ] (m : List (κ × α)) (k : κ) (v : α) :
    eraseA (insertA m k v) k = eraseA m k := by
  induction m with
  | nil => simp [insertA, eraseA]
  | cons hd tl ih =>
    obtain ⟨k₀, v₀⟩ := hd
    by_cases h0 : k₀ = k <;> simp [insertA, eraseA, h0, ih]

theorem insertA_of_lookupA_none {κ α : Type} [DecidableEq κ] (m : List (κ × α)) (k : κ) (v : α)
    (h : lookupA m k = none) : insertA m k v = m ++ [(k, v)] := by
  induction m with
  | nil => simp [insertA]
  | cons hd tl ih =>
    obtain ⟨k₀, v₀⟩ := hd
    by_cases h0 : k₀ = k
    · simp [lookupA, h0] at h
    · simp [lookupA, h0] at h
      simp [insertA, h0, ih h]

theorem insertA_append_of_lookupA_none {κ α : Type} [DecidableEq κ]
    (m₁ m₂ : List (κ × α)) (k : κ) (v : α) (h : lookupA m₁ k = none) :
    insertA (m₁ ++ m₂) k v = m₁ ++ insertA m₂ k v := by
  induction m₁ with
  | nil => simp
  | cons hd tl ih =>
    obtain ⟨k₀, v₀⟩ := hd
    by_cases h0 : k₀ = k
    · simp [lookupA, h0] at h
    · simp [lookupA, h0] at h
      simp [insertA, h0, ih h]

theorem lookupA_append {κ α : Type} [DecidableEq κ] (m₁ m₂ : List (κ × α)) (k : κ) :
    lookupA (m₁ ++ m₂) k = ((lookupA m₁ k).orElse fun _ => lookupA m₂ k) := by
  induction m₁ with
  | nil => simp [lookupA]
  | cons hd tl ih =>
    obtain ⟨k₀, v₀⟩ := hd
    by_cases h0 : k₀ = k <;> simp [lookupA, h0, ih]

theorem lookupA_map_range' (g : Nat → α) (a len k : Nat) :
    lookupA ((List.range' a len).map fun s => (s, g s)) k =
      if a ≤ k ∧ k < a + len then some (g k) else none := by
  induction len generalizing a with
  | zero => simp [lookupA]; rw [if_neg (by omega)]
  | succ n ih =>
    rw [List.range'_succ]
    by_cases h : a = k
    · subst h; rw [if_pos (by omega)]; simp [lookupA]
    · simp only [List.map_cons, lookupA_cons, h, if_false, ih]
      by_cases h2 : a + 1 ≤ k ∧ k < a + 1 + n
      · rw [if_pos h2, if_pos (by omega)]
      · rw [if_neg h2, if_neg (by omega)]

/-! ## Lemma library: resource-counter algebra -/

theorem bumpAt_nil (i : Nat) (c : Int) : bumpAt i c [] = [] := by
  cases i <;> rfl

theorem addUsageRes_eq_bumpAt (rs : List Resource) (n : String) (v : Int) :
    addUsageRes rs n v = bumpAt (rnameIdx rs n) v rs := by
  induction rs with
  | nil => rfl
  | cons r rest ih =>
    by_cases h : r.rname = n
    · simp [addUsageRes, rnameIdx, List.findIdx_cons, h, bumpAt]
    · have hb : (r.rname == n) = false := by simp [h]
      simp only [addUsageRes, rnameIdx, List.findIdx_cons] at ih ⊢
      simp [h, hb, bumpAt, ih]

theorem subUsageRes_eq_bumpAt (rs : List Resource) (n : String) (v : Int) :
    subUsageRes rs n v = bumpAt (rnameIdx rs n) (-v) rs := by
  induction rs with
  | nil => rfl
  | cons r rest ih =>
    by_cases h : r.rname = n
    · simp [subUsageRes, rnameIdx, List.findIdx_cons, h, bumpAt, sub_eq_add_neg]
    · have hb : (r.rname == n) = false := by simp [h]
      simp only [subUsageRes, rnameIdx, List.findIdx_cons] at ih ⊢
      simp [h, hb, bumpAt, ih]

theorem incCount_eq_bumpAt (rs : List Resource) :
    incCount rs = bumpAt (rtypeIdx rs) 1 rs := by
  induction rs with
  | nil => rfl
  | cons r rest ih =>
    by_cases h : r.rtype = 1
    · simp [incCount, rtypeIdx, List.findIdx_cons, h, bumpAt]
    · have hb : (r.rtype == 1) = false := by simp [h]
      simp only [incCount, rtypeIdx, List.findIdx_cons] at ih ⊢
      simp [h, hb, bumpAt, ih]

theorem decCount_eq_bumpAt (rs : List Resource) :
    decCount rs = bumpAt (rtypeIdx rs) (-1) rs := by
  induction rs with
  | nil => rfl
  | cons r rest ih =>
    by_cases h : r.rtype = 1
    · simp [decCount, rtypeIdx, List.findIdx_cons, h, bumpAt, sub_eq_add_neg]
    · have hb : (r.rtype == 1) = false := by simp [h]
      simp only [decCount, rtypeIdx, List.findIdx_cons] at ih ⊢
      simp [h, hb, bumpAt, ih]

theorem findIdx_bumpAt (p : Resource → Bool)
    (hp : ∀ r c, p { r with usage := r.usage + c } = p r)
    (j : Nat) (c : Int) (rs : List Resource) :
    (bumpAt j c rs).findIdx p = rs.findIdx p := by
  induction rs generalizing j with
  | nil => simp [bumpAt_nil]
  | cons r rest ih =>
    cases j with
    | zero => simp [bumpAt, List.findIdx_cons, hp]
    | succ m => simp [bumpAt, List.findIdx_cons, ih]

theorem rnameIdx_bumpAt (j : Nat) (c : Int) (rs : List Resource) (n : String) :
    rnameIdx (bumpAt j c rs) n = rnameIdx rs n :=
  findIdx_bumpAt (fun r => r.rname == n) (fun _ _ => rfl) j c rs

theorem rtypeIdx_bumpAt (j : Nat) (c : Int) (rs : List Resource) :
    rtypeIdx (bumpAt j c rs) = rtypeIdx rs :=
  findIdx_bumpAt (fun r => r.rtype == 1) (fun _ _ => rfl) j c rs

theorem bumpAt_comm (i j : Nat) (c d : Int) (rs : List Resource) :
    bumpAt i c (bumpAt j d rs) = bumpAt j d (bumpAt i c rs) := by
  induction rs generalizing i j with
  | nil => simp [bumpAt_nil]
  | cons r rest ih =>
    cases i with
    | zero =>
      cases j with
      | zero => simp only [bumpAt]; rw [add_right_comm]
      | succ m => simp [bumpAt]
    | succ n =>
      cases j with
      | zero => simp [bumpAt]
      | succ m => simp [bumpAt, ih]

theorem bumpAt_cancel (i : Nat) (c : Int) (rs : List Resource) :
    bumpAt i (-c) (bumpAt i c rs) = rs := by
  induction rs generalizing i with
  | nil => simp [bumpAt_nil]
  | cons r rest ih =>
    cases i with
    | zero => simp [bumpAt]
    | succ n => simp [bumpAt, ih]

theorem bumps_cons (p : Nat × Int) (l : List (Nat × Int)) (rs : List Resource) :
    bumps (p :: l) rs = bumps l (bumpAt p.1 p.2 rs) := rfl

theorem bumps_bumpAt_comm (l : List (Nat × Int)) (i : Nat) (c : Int) (rs : List Resource) :
    bumps l (bumpAt i c rs) = bumpAt i c (bumps l rs) := by
  induction l generalizing rs with
  | nil => rfl
  | cons p rest ih => rw [bumps_cons, bumps_cons, bumpAt_comm, ih]

theorem bumps_inv (l : List (Nat × Int)) (rs : List Resource) :
    bumps (l.map fun p => (p.1, -p.2)) (bumps l rs) = rs := by
  induction l generalizing rs with
  | nil => rfl
  | cons p rest ih =>
    simp only [List.map_cons, bumps_cons]
    rw [← bumps_bumpAt_comm, bumpAt_cancel]
    exact ih rs

theorem findIdx_bumps (p : Resource → Bool)
    (hp : ∀ r c, p { r with usage := r.usage + c } = p r)
    (l : List (Nat × Int)) (rs : List Resource) :
    (bumps l rs).findIdx p = rs.findIdx p := by
  induction l generalizing rs with
  | nil => rfl
  | cons q rest ih => rw [bumps_cons, ih, findIdx_bumpAt p hp]

theorem rnameIdx_bumps (l : List (Nat × Int)) (rs : List Resource) (n : String) :
    rnameIdx (bumps l rs) n = rnameIdx rs n :=
  findIdx_bumps (fun r => r.rname == n) (fun _ _ => rfl) l rs

theorem rtypeIdx_bumps (l : List (Nat × Int)) (rs : List Resource) :
    rtypeIdx (bumps l rs) = rtypeIdx rs :=
  findIdx_bumps (fun r => r.rtype == 1) (fun _ _ => rfl) l rs

theorem addUsageAll_eq_bumps (rs : List Resource) (u : List (String × Int)) :
    addUsageAll rs u = bumps (u.map fun p => (rnameIdx rs p.1, p.2)) rs := by
  induction u generalizing rs with
  | nil => rfl
  | cons p rest ih =>
    have hstep : addUsageAll rs (p :: rest) = addUsageAll (addUsageRes rs p.1 p.2) rest := rfl
    rw [hstep, ih, List.map_cons, bumps_cons]
    rw [addUsageRes_eq_bumpAt]
    congr 1
    refine List.map_congr_left fun q _ => ?_
    rw [rnameIdx_bumpAt]

theorem subUsageAll_eq_bumps (rs : List Resource) (u : List (String × Int)) :
    subUsageAll rs u = bumps (u.map fun p => (rnameIdx rs p.1, -p.2)) rs := by
  induction u generalizing rs with
  | nil => rfl
  | cons p rest ih =>
    have hstep : subUsageAll rs (p :: rest) = subUsageAll (subUsageRes rs p.1 p.2) rest := rfl
    rw [hstep, ih, List.map_cons, bumps_cons]
    rw [subUsageRes_eq_bumpAt]
    congr 1
    refine List.map_congr_left fun q _ => ?_
    rw [rnameIdx_bumpAt]

/-- The `AddInstance` usage bumps followed by the `deleteInstance` usage
bumps restore every resource record exactly. -/
theorem resources_roundtrip (rs : List Resource) (u : List (String × Int)) :
    decCount (subUsageAll (incCount (addUsageAll rs u)) u) = rs := by
  rw [addUsageAll_eq_bumps, incCount_eq_bumpAt, rtypeIdx_bumps]
  rw [subUsageAll_eq_bumps]
  have hidx : ∀ n, rnameIdx (bumpAt (rtypeIdx rs) 1 (bumps (u.map fun p => (rnameIdx rs p.1, p.2)) rs)) n
      = rnameIdx rs n := by
    intro n
    rw [rnameIdx_bumpAt, rnameIdx_bumps]
  have hmap : (u.map fun p =>
        (rnameIdx (bumpAt (rtypeIdx rs) 1 (bumps (u.map fun q => (rnameIdx rs q.1, q.2)) rs)) p.1,
          -p.2))
      = (u.map fun p => (rnameIdx rs p.1, p.2)).map fun q => (q.1, -q.2) := by
    rw [List.map_map]
    refine List.map_congr_left fun p _ => ?_
    simp only [Function.comp_apply]
    rw [hidx]
  rw [hmap, bumps_bumpAt_comm, decCount_eq_bumpAt]
  rw [rtypeIdx_bumpAt, rtypeIdx_bumps, rtypeIdx_bumps]
  rw [bumpAt_cancel _ 1 _, bumps_inv]

/-! ## Claim C1 -/

/-- C1: refuted by the code — on the failing input `c1DS`,
`updateStorageAttachments("i1", ["v1"])` must, per the claim, leave instance
`i2`'s attachment record `a2` unchanged; the removal loop iterates the whole
`instanceVolumes` map without filtering on the owning instance, so it deletes
`a2` (and its `(i2,v2)` link) and flips volume `v2` back to `Available`,
touching state that belongs to another instance. -/
theorem C1_other_instance_attachment_removed :
    (updateStorageAttachments c1DS "i1" ["v1"] []).2 = .ret () ∧
    lookupA c1DS.attachments "a2" = some ⟨"a2", "i2", "v2"⟩ ∧
    lookupA (updateStorageAttachments c1DS "i1" ["v1"] []).1.attachments "a2" = none ∧
    lookupA (updateStorageAttachments c1DS "i1" ["v1"] []).1.instanceVolumes ("i2", "v2") = none ∧
    lookupA (updateStorageAttachments c1DS "i1" ["v1"] []).1.blockDevices "v2" =
      some ⟨"v2", "t1", .available⟩ := by decide

/-! ## Claim C3 -/

/-- C3 counterexample: for the cached tenant `t1` of `c3DS` (which owns no
subnet) and the well-formed address `172.16.0.5` — not currently claimed by
`t1` — `ReleaseTenantIP` is not a no-op: the cache-clearing assignment
`network[4096][5] = false` writes into a nil inner map and panics. -/
theorem C3_counterexample_release_panics :
    (lookupA c3DS.tenants "t1").isSome = true ∧
    (releaseTenantIP c3DS "t1" (some ⟨172, 16, 0, 5⟩)).2 =
      .panicked "assignment to entry in nil map" := by decide

/-- C3 (amended): for a cached tenant and a well-formed address whose subnet
(the middle two octets) is present in the tenant's network map,
`ReleaseTenantIP` returns no error and only sets that host's entry to
unclaimed (`false`), and releasing the same address twice leaves the
allocator state identical to releasing it once. -/
theorem C3_release_no_error_and_idempotent (ds : DS) (tid : String) (a : IP4) (t : Tenant)
    (hosts : List (Nat × Bool))
    (ht : lookupA ds.tenants tid = some t)
    (hn : lookupA t.network (a.b1 * 256 + a.b2) = some hosts) :
    (releaseTenantIP ds tid (some a)).2 = .ret none ∧
    (releaseTenantIP ds tid (some a)).1 = { ds with
      tenants := insertA ds.tenants tid
        { t with network := insertA t.network (a.b1 * 256 + a.b2) (insertA hosts a.b3 false) } } ∧
    releaseTenantIP (releaseTenantIP ds tid (some a)).1 tid (some a) =
      ((releaseTenantIP ds tid (some a)).1, .ret none) := by
  have h1 : releaseTenantIP ds tid (some a) = ({ ds with
      tenants := insertA ds.tenants tid
        { t with network := insertA t.network (a.b1 * 256 + a.b2) (insertA hosts a.b3 false) } },
      .ret none) := by
    simp only [releaseTenantIP, ht, hn]
  refine ⟨by rw [h1], by rw [h1], ?_⟩
  rw [h1]
  simp only [releaseTenantIP, lookupA_insertA_self, insertA_insertA_self]

/-- C3 witness: the amended theorem applied to the concrete state `c3wDS`
(subnet 4096 cached, host 5 claimed) and address `172.16.0.5`. -/
theorem C3_witness :
    lookupA c3wDS.tenants "t1" = some c3wTenant ∧
    (releaseTenantIP c3wDS "t1" (some ⟨172, 16, 0, 5⟩)).2 = .ret none ∧
    releaseTenantIP (releaseTenantIP c3wDS "t1" (some ⟨172, 16, 0, 5⟩)).1 "t1"
        (some ⟨172, 16, 0, 5⟩) =
      ((releaseTenantIP c3wDS "t1" (some ⟨172, 16, 0, 5⟩)).1, .ret none) := by
  have h := C3_release_no_error_and_idempotent c3wDS "t1" ⟨172, 16, 0, 5⟩ c3wTenant
    [(5, true)] (by decide) (by decide)
  exact ⟨by decide, h.1, h.2.2⟩

/-! ## Claim C9 -/

/-- The host-claiming tail can fail or panic on a nil host map, but never
emits the entry panic of a nil tenant dereference. -/
theorem hostClaim_no_nil_tenant_panic (st : TNet) (s : Nat) :
    (hostClaim st s).1 ≠ .panicked "nil tenant dereference" := by
  unfold hostClaim
  cases h1 : lookupA st.network s with
  | none => simp
  | some hosts =>
    cases h2 : probeHost hosts 2 with
    | none => simp [h2]
    | some rest => simp [h2]

/-- The allocator body never emits the entry panic of a nil tenant
dereference. -/
theorem allocCore_no_nil_tenant_panic (st : TNet) :
    (allocCore st).1 ≠ .panicked "nil tenant dereference" := by
  simp only [allocCore]
  by_cases h0 : pickSubnet st.network (List.insertionSort (fun a b => a ≤ b) st.subnets) = 0
  · rw [if_pos h0]
    cases hps : probeSubnet st.allSubnets 4096 with
    | none => simp
    | some i => exact hostClaim_no_nil_tenant_panic _ _
  · rw [if_neg h0]
    exact hostClaim_no_nil_tenant_panic _ _

/-- C9: `AllocateTenantIP` on a tenant id absent from the tenant map panics
with a nil tenant dereference on entry (it does not return the not-found
error); when the tenant is cached, that nil-dereference is unreachable. -/
theorem C9_allocate_requires_cached_tenant (ds : DS) (tid : String) :
    (lookupA ds.tenants tid = none →
      (allocateTenantIP ds tid).1 = .panicked "nil tenant dereference") ∧
    (∀ t, lookupA ds.tenants tid = some t →
      (allocateTenantIP ds tid).1 ≠ .panicked "nil tenant dereference") := by
  constructor
  · intro h
    simp [allocateTenantIP, h]
  · intro t h
    simp only [allocateTenantIP, h]
    exact allocCore_no_nil_tenant_panic _

/-- C9 witness: the missing-tenant conjunct at the empty datastore and the
cached-tenant conjunct at `c3wDS`. -/
theorem C9_witness :
    lookupA emptyDS.tenants "t1" = none ∧
    (allocateTenantIP emptyDS "t1").1 = .panicked "nil tenant dereference" ∧
    (allocateTenantIP c3wDS "t1").1 ≠ .panicked "nil tenant dereference" :=
  ⟨by decide, (C9_allocate_requires_cached_tenant emptyDS "t1").1 (by decide),
    (C9_allocate_requires_cached_tenant c3wDS "t1").2 c3wTenant (by decide)⟩

/-! ## Claim C10 -/

/-- C10: `AddInstance` returns nil for every input; when the instance's
tenant is not cached, the instance is still inserted into the global
instance map and the last-known-stats cache, while the tenant map — hence
every usage counter and every tenant instance map — is left untouched. -/
theorem C10_addInstance_total_and_tenantless (ds : DS) (now : Int) (inst : Instance) :
    (addInstance ds now inst).2 = none ∧
    (lookupA ds.tenants inst.tenantID = none →
      lookupA (addInstance ds now inst).1.instances inst.id = some inst ∧
      (lookupA (addInstance ds now inst).1.instanceLastStat inst.id).isSome = true ∧
      (addInstance ds now inst).1.tenants = ds.tenants) := by
  unfold addInstance
  cases h : lookupA ds.tenants inst.tenantID with
  | none => simp [h, lookupA_insertA_self]
  | some t => simp [h]

/-- C10 witness: the theorem applied to the empty datastore and an instance
owned by the unknown tenant `ghost`. -/
theorem C10_witness :
    (addInstance emptyDS 0 c10Inst).2 = none ∧
    lookupA (addInstance emptyDS 0 c10Inst).1.instances "i9" = some c10Inst ∧
    (addInstance emptyDS 0 c10Inst).1.tenants = [] :=
  ⟨(C10_addInstance_total_and_tenantless emptyDS 0 c10Inst).1,
    ((C10_addInstance_total_and_tenantless emptyDS 0 c10Inst).2 (by decide)).1,
    ((C10_addInstance_total_and_tenantless emptyDS 0 c10Inst).2 (by decide)).2.2⟩

/-! ## Lemma library: instance deletion -/

theorem releaseTenantIP_frame (ds : DS) (tid : String) (ip : Option IP4) :
    (releaseTenantIP ds tid ip).1.instances = ds.instances ∧
    (releaseTenantIP ds tid ip).1.instanceLastStat = ds.instanceLastStat ∧
    (releaseTenantIP ds tid ip).1.nodes = ds.nodes ∧
    (releaseTenantIP ds tid ip).1.eventLog = ds.eventLog := by
  unfold releaseTenantIP
  cases ip with
  | none => exact ⟨rfl, rfl, rfl, rfl⟩
  | some a =>
    cases h1 : lookupA ds.tenants tid with
    | none => simp
    | some t0 =>
      cases h2 : lookupA t0.network (a.b1 * 256 + a.b2) with
      | none => simp [h2]
      | some hosts => simp [h2]

theorem releaseTenantIP_tenant_self (ds : DS) (tid : String) (ip : Option IP4) (t0 : Tenant)
    (h : lookupA ds.tenants tid = some t0) :
    ∃ t2, lookupA (releaseTenantIP ds tid ip).1.tenants tid = some t2 ∧
      t2.resources = t0.resources ∧ t2.instances = t0.instances := by
  unfold releaseTenantIP
  cases ip with
  | none => exact ⟨t0, h, rfl, rfl⟩
  | some a =>
    rw [h]
    cases h2 : lookupA t0.network (a.b1 * 256 + a.b2) with
    | none => simp [h2]; exact ⟨t0, h, rfl, rfl⟩
    | some hosts =>
      simp [h2]
      refine ⟨_, lookupA_insertA_self _ _ _, rfl, rfl⟩

theorem releaseTenantIP_ret (ds : DS) (tid : String) (ip : Option IP4) (t0 : Tenant)
    (h : lookupA ds.tenants tid = some t0)
    (hr : ∀ a, ip = some a → (lookupA t0.network (a.b1 * 256 + a.b2)).isSome = true) :
    ∃ e, (releaseTenantIP ds tid ip).2 = .ret e := by
  unfold releaseTenantIP
  cases ip with
  | none => exact ⟨_, rfl⟩
  | some a =>
    rw [h]
    cases h2 : lookupA t0.network (a.b1 * 256 + a.b2) with
    | none =>
      have hx := hr a rfl
      rw [h2] at hx
      simp at hx
    | some hosts => simp [h2]

/-- The in-memory effect of `deleteInstance` on a state where the instance
and its tenant are cached: the tenant keeps its identity with the usage
bumps undone and the instance dropped from its index, the instance vanishes
from the global and last-stats maps, its node index entry (when the node is
cached) no longer holds it, and no event is logged — whether or not the
trailing node lookup or IP release panics. -/
theorem deleteInstance_state (ds : DS) (iid : String) (i : Instance) (t : Tenant)
    (hi : lookupA ds.instances iid = some i)
    (ht : lookupA ds.tenants i.tenantID = some t) :
    (∃ tf, lookupA (deleteInstance ds iid).1.tenants i.tenantID = some tf ∧
      tf.resources = decCount (subUsageAll t.resources i.usage) ∧
      tf.instances = eraseA t.instances iid) ∧
    lookupA (deleteInstance ds iid).1.instances iid = none ∧
    lookupA (deleteInstance ds iid).1.instanceLastStat iid = none ∧
    (∀ n, i.nodeID ≠ "" → lookupA (deleteInstance ds iid).1.nodes i.nodeID = some n →
      lookupA n.instances iid = none) ∧
    (deleteInstance ds iid).1.eventLog = ds.eventLog := by
  unfold deleteInstance
  simp only [hi, ht]
  set t1 : Tenant := { t with instances := eraseA t.instances iid
                              resources := decCount (subUsageAll t.resources i.usage) } with ht1
  set ds2 : DS := { ds with instanceLastStat := eraseA ds.instanceLastStat iid
                            instances := eraseA ds.instances iid
                            tenants := insertA ds.tenants i.tenantID t1 } with hds2
  have hsell : lookupA ds2.tenants i.tenantID = some t1 := lookupA_insertA_self _ _ _
  by_cases hn : i.nodeID = ""
  · rw [if_pos hn]
    obtain ⟨t2, hlk, hres, hins⟩ := releaseTenantIP_tenant_self ds2 i.tenantID i.ipAddress t1 hsell
    refine ⟨⟨t2, hlk, ?_, ?_⟩, ?_, ?_, ?_, ?_⟩
    · rw [hres]
    · rw [hins]
    · rw [(releaseTenantIP_frame ds2 _ _).1]
      exact lookupA_eraseA_self _ _
    · rw [(releaseTenantIP_frame ds2 _ _).2.1]
      exact lookupA_eraseA_self _ _
    · intro n hne
      exact absurd hn hne
    · exact (releaseTenantIP_frame ds2 _ _).2.2.2
  · rw [if_neg hn]
    cases hlk : lookupA ds2.nodes i.nodeID with
    | none =>
      refine ⟨⟨t1, hsell, rfl, rfl⟩, ?_, ?_, ?_, rfl⟩
      · exact lookupA_eraseA_self _ _
      · exact lookupA_eraseA_self _ _
      · intro n hne hsome
        rw [hlk] at hsome
        exact absurd hsome (by simp)
    | some nd =>
      set ds3 : DS := { ds2 with
        nodes := insertA ds2.nodes i.nodeID { nd with instances := eraseA nd.instances iid } } with hds3
      have hsell3 : lookupA ds3.tenants i.tenantID = some t1 := hsell
      obtain ⟨t2, hlk2, hres, hins⟩ := releaseTenantIP_tenant_self ds3 i.tenantID i.ipAddress t1 hsell3
      refine ⟨⟨t2, hlk2, ?_, ?_⟩, ?_, ?_, ?_, ?_⟩
      · rw [hres]
      · rw [hins]
      · rw [(releaseTenantIP_frame ds3 _ _).1]
        exact lookupA_eraseA_self _ _
      · rw [(releaseTenantIP_frame ds3 _ _).2.1]
        exact lookupA_eraseA_self _ _
      · intro n hne hsome
        rw [(releaseTenantIP_frame ds3 _ _).2.2.1] at hsome
        have hself : lookupA ds3.nodes i.nodeID =
            some { nd with instances := eraseA nd.instances iid } := lookupA_insertA_self _ _ _
        rw [hself] at hsome
        cases hsome
        exact lookupA_eraseA_self _ _
      · exact (releaseTenantIP_frame ds3 _ _).2.2.2

/-- `deleteInstance` completes without panic (returning the IP release's
result) when the instance and its tenant are cached, the node (when set) is
cached, and the instance's address parses only into a subnet the tenant's
network map holds. -/
theorem deleteInstance_ret (ds : DS) (iid : String) (i : Instance) (t : Tenant)
    (hi : lookupA ds.instances iid = some i)
    (ht : lookupA ds.tenants i.tenantID = some t)
    (hnode : i.nodeID ≠ "" → (lookupA ds.nodes i.nodeID).isSome = true)
    (hip : ∀ a, i.ipAddress = some a →
      (lookupA t.network (a.b1 * 256 + a.b2)).isSome = true) :
    ∃ e, (deleteInstance ds iid).2 = .ret e := by
  unfold deleteInstance
  simp only [hi, ht]
  set t1 : Tenant := { t with instances := eraseA t.instances iid
                              resources := decCount (subUsageAll t.resources i.usage) } with ht1
  set ds2 : DS := { ds with instanceLastStat := eraseA ds.instanceLastStat iid
                            instances := eraseA ds.instances iid
                            tenants := insertA ds.tenants i.tenantID t1 } with hds2
  have hsell : lookupA ds2.tenants i.tenantID = some t1 := lookupA_insertA_self _ _ _
  have hrel : ∀ dsx : DS, lookupA dsx.tenants i.tenantID = some t1 →
      ∃ e, (releaseTenantIP dsx i.tenantID i.ipAddress).2 = .ret e := by
    intro dsx hx
    exact releaseTenantIP_ret dsx _ _ t1 hx (fun a ha => hip a ha)
  by_cases hn : i.nodeID = ""
  · rw [if_pos hn]
    exact hrel ds2 hsell
  · rw [if_neg hn]
    cases hlk : lookupA ds2.nodes i.nodeID with
    | none =>
      exfalso
      have hx := hnode hn
      have heq : ds2.nodes = ds.nodes := rfl
      rw [heq] at hlk
      rw [hlk] at hx
      simp at hx
    | some nd =>
      exact hrel _ hsell

/-! ## Claim C5 -/

/-- C5: for an instance whose tenant is cached, `AddInstance` immediately
followed by `DeleteInstance`'s in-memory deletion leaves every one of that
tenant's resource records — usage counters included, the reserved Rtype-1
instance count among them — exactly at its pre-Add value, and afterwards the
instance is absent from the global instance map, from its tenant's instance
map, and from its node's instance map. -/
theorem C5_add_delete_roundtrip (ds : DS) (now : Int) (inst : Instance) (t : Tenant)
    (ht : lookupA ds.tenants inst.tenantID = some t) :
    (∃ tf, lookupA (deleteInstance (addInstance ds now inst).1 inst.id).1.tenants
        inst.tenantID = some tf ∧
      tf.resources = t.resources ∧
      lookupA tf.instances inst.id = none) ∧
    lookupA (deleteInstance (addInstance ds now inst).1 inst.id).1.instances inst.id = none ∧
    (∀ n, inst.nodeID ≠ "" →
      lookupA (deleteInstance (addInstance ds now inst).1 inst.id).1.nodes inst.nodeID = some n →
      lookupA n.instances inst.id = none) := by
  have hadd : (addInstance ds now inst).1 = { ds with
      instances := insertA ds.instances inst.id inst
      instanceLastStat := insertA ds.instanceLastStat inst.id
        { id := inst.id, tenantID := inst.tenantID, nodeID := inst.nodeID
          status := inst.state, timestamp := now
          vcpuUsage := 0, memUsage := 0, diskUsage := 0 }
      tenants := insertA ds.tenants inst.tenantID
        { t with resources := incCount (addUsageAll t.resources inst.usage)
                 instances := insertA t.instances inst.id inst } } := by
    unfold addInstance
    simp only [ht]
  rw [hadd]
  set t1 : Tenant := { t with resources := incCount (addUsageAll t.resources inst.usage)
                              instances := insertA t.instances inst.id inst } with ht1
  set ds1 : DS := { ds with
      instances := insertA ds.instances inst.id inst
      instanceLastStat := insertA ds.instanceLastStat inst.id
        { id := inst.id, tenantID := inst.tenantID, nodeID := inst.nodeID
          status := inst.state, timestamp := now
          vcpuUsage := 0, memUsage := 0, diskUsage := 0 }
      tenants := insertA ds.tenants inst.tenantID t1 } with hds1
  have hi1 : lookupA ds1.instances inst.id = some inst := lookupA_insertA_self _ _ _
  have ht1l : lookupA ds1.tenants inst.tenantID = some t1 := lookupA_insertA_self _ _ _
  obtain ⟨⟨tf, hlk, hres, hins⟩, hinst, _, hnode, _⟩ :=
    deleteInstance_state ds1 inst.id inst t1 hi1 ht1l
  refine ⟨⟨tf, hlk, ?_, ?_⟩, hinst, hnode⟩
  · rw [hres]
    exact resources_roundtrip t.resources inst.usage
  · rw [hins]
    rw [show t1.instances = insertA t.instances inst.id inst from rfl]
    rw [eraseA_insertA_self]
    exact lookupA_eraseA_self _ _

/-- C5 witness: the theorem at the concrete state `w5DS` — after adding and
deleting instance `i1`, tenant `t1`'s resources are back to `w5Res` and `i1`
is gone from every map. -/
theorem C5_witness :
    lookupA (deleteInstance (addInstance w5DS 0 w5Inst).1 "i1").1.instances "i1" = none ∧
    (∃ tf, lookupA (deleteInstance (addInstance w5DS 0 w5Inst).1 "i1").1.tenants "t1" = some tf ∧
      tf.resources = w5Res ∧ lookupA tf.instances "i1" = none) := by
  have h := C5_add_delete_roundtrip w5DS 0 w5Inst w5Tenant (by decide)
  exact ⟨h.2.1, h.1⟩

/-! ## Claim C8 -/

/-- C8 counterexample: for the non-CNCI instance `i1` of `c8DS` — present in
the datastore but owned by an uncached tenant — `StartFailure` with the
fatal reason `full_cloud` panics mid-deletion: no tenant-scoped error event
is logged and the instance is still present in node `n1`'s instance map,
contradicting the claim's unconditional "removes from all maps and logs". -/
theorem C8_counterexample_missing_tenant :
    lookupA c8DS.instances "i1" = some c8Inst ∧
    (∀ p ∈ c8DS.tenants, p.2.cnciID ≠ "i1") ∧
    (startFailure c8DS "i1" .fullCloud).2 = .panicked "nil tenant dereference" ∧
    (startFailure c8DS "i1" .fullCloud).1.eventLog = [] ∧
    lookupA (startFailure c8DS "i1" .fullCloud).1.nodes "n1" =
      some ⟨"n1", "host1", [("i1", c8Inst)]⟩ := by decide

/-- C8 (amended): for every non-CNCI instance present in the datastore whose
tenant is cached, whose node (when its node id is set) is cached, and whose
IP address — if it parses — lies in a subnet of the tenant's network map,
`StartFailure` deletes the instance from the global, last-stats, tenant and
node maps exactly when the reason is one of the eight fatal ones, leaves the
datastore unchanged for the three retryable ones, and in both cases appends
one tenant-scoped error event. -/
theorem C8_startFailure (ds : DS) (iid : String) (reason : StartFailureReason)
    (i : Instance) (t : Tenant)
    (hcnci : ∀ p ∈ ds.tenants, p.2.cnciID ≠ iid)
    (hi : lookupA ds.instances iid = some i)
    (ht : lookupA ds.tenants i.tenantID = some t)
    (hnode : i.nodeID ≠ "" → (lookupA ds.nodes i.nodeID).isSome = true)
    (hip : ∀ a, i.ipAddress = some a →
      (lookupA t.network (a.b1 * 256 + a.b2)).isSome = true) :
    (startFailure ds iid reason).2 = .ret none ∧
    (startFailureFatal reason = true →
      lookupA (startFailure ds iid reason).1.instances iid = none ∧
      lookupA (startFailure ds iid reason).1.instanceLastStat iid = none ∧
      (∀ t2, lookupA (startFailure ds iid reason).1.tenants i.tenantID = some t2 →
        lookupA t2.instances iid = none) ∧
      (∀ n, i.nodeID ≠ "" → lookupA (startFailure ds iid reason).1.nodes i.nodeID = some n →
        lookupA n.instances iid = none) ∧
      (startFailure ds iid reason).1.eventLog =
        ds.eventLog ++ [(i.tenantID, "error", "Start Failure " ++ iid)]) ∧
    (startFailureFatal reason = false →
      (startFailure ds iid reason).1 =
        { ds with eventLog := ds.eventLog ++ [(i.tenantID, "error", "Start Failure " ++ iid)] }) := by
  have hfind : ds.tenants.find? (fun p => p.2.cnciID == iid) = none := by
    rw [List.find?_eq_none]
    intro p hp
    simp [hcnci p hp]
  unfold startFailure
  simp only [hfind, hi]
  cases hf : startFailureFatal reason with
  | true =>
    rw [if_pos rfl]
    obtain ⟨e, he⟩ := deleteInstance_ret ds iid i t hi ht hnode hip
    obtain ⟨⟨tf, hlk, _, hins⟩, hinst, hstat, hnd, hlog⟩ := deleteInstance_state ds iid i t hi ht
    rw [he]
    refine ⟨rfl, ?_, ?_⟩
    · intro _
      refine ⟨hinst, hstat, ?_, hnd, ?_⟩
      · intro t2 hlk2
        rw [hlk] at hlk2
        cases hlk2
        rw [hins]
        exact lookupA_eraseA_self _ _
      · rw [hlog]
    · intro hcontra
      cases hcontra
  | false =>
    rw [if_neg (by simp)]
    refine ⟨rfl, ?_, ?_⟩
    · intro hcontra
      cases hcontra
    · intro _
      rfl

/-- C8 witness: the amended theorem at the well-formed state `c8wDS`, with a
fatal reason (`full_cloud` deletes and logs) and a retryable one
(`launch_failure` only logs). -/
theorem C8_witness :
    (startFailure c8wDS "i1" .fullCloud).2 = .ret none ∧
    lookupA (startFailure c8wDS "i1" .fullCloud).1.instances "i1" = none ∧
    (startFailure c8wDS "i1" .fullCloud).1.eventLog = [("t1", "error", "Start Failure i1")] ∧
    (startFailure c8wDS "i1" .launchFailure).1 =
      { c8wDS with eventLog := [("t1", "error", "Start Failure i1")] } := by
  have hfat := C8_startFailure c8wDS "i1" .fullCloud w5Inst w5Tenant (by decide) (by decide)
    (by decide) (by decide) (fun a ha => by cases ha)
  have hret := C8_startFailure c8wDS "i1" .launchFailure w5Inst w5Tenant (by decide) (by decide)
    (by decide) (by decide) (fun a ha => by cases ha)
  refine ⟨hfat.1, (hfat.2.1 rfl).1, ?_, ?_⟩
  · rw [(hfat.2.1 rfl).2.2.2.2]
    decide
  · rw [hret.2.2 rfl]
    decide

/-! ## Claim C6 -/

/-- C6: starting from an empty usage history, two nonzero-delta
`updateTenantUsage` calls less than 5 minutes apart coalesce into exactly one
history entry holding the cumulative sum of both deltas under the first
call's timestamp; more than 5 minutes apart they produce exactly two
entries; and an all-zero delta appends nothing. -/
theorem C6_usage_coalescing (ds : DS) (tid : String) (d1 d2 : CiaoUsage) (t1 t2 : Int)
    (h0 : lookupD ds.tenantUsage tid [] = [])
    (h1 : updateTenantUsageNeeded d1 = true)
    (h2 : updateTenantUsageNeeded d2 = true) :
    (t2 - t1 < 300 →
      lookupD (updateTenantUsage (updateTenantUsage ds t1 d1 tid) t2 d2 tid).tenantUsage tid []
        = [⟨d1.vcpu + d2.vcpu, d1.memory + d2.memory, d1.disk + d2.disk, t1⟩]) ∧
    (t2 - t1 > 300 →
      lookupD (updateTenantUsage (updateTenantUsage ds t1 d1 tid) t2 d2 tid).tenantUsage tid []
        = [⟨d1.vcpu, d1.memory, d1.disk, t1⟩,
            ⟨d1.vcpu + d2.vcpu, d1.memory + d2.memory, d1.disk + d2.disk, t2⟩]) ∧
    (∀ ds0 now0 d0, updateTenantUsageNeeded d0 = false →
      updateTenantUsage ds0 now0 d0 tid = ds0) := by
  have hne1 : ¬(updateTenantUsageNeeded d1 = false) := by simp [h1]
  have hne2 : ¬(updateTenantUsageNeeded d2 = false) := by simp [h2]
  have hfirst : updateTenantUsage ds t1 d1 tid = { ds with
      tenantUsage := insertA ds.tenantUsage tid [⟨d1.vcpu, d1.memory, d1.disk, t1⟩] } := by
    unfold updateTenantUsage
    rw [if_neg hne1]
    simp [h0]
  refine ⟨?_, ?_, ?_⟩
  · intro hlt
    rw [hfirst]
    unfold updateTenantUsage
    rw [if_neg hne2]
    simp only [lookupD_insertA_self]
    simp [hlt, lookupD_insertA_self]
  · intro hgt
    rw [hfirst]
    unfold updateTenantUsage
    rw [if_neg hne2]
    simp only [lookupD_insertA_self]
    have hge : ¬(t2 - t1 < 300) := by omega
    simp [hge, lookupD_insertA_self]
  · intro ds0 now0 d0 hz
    unfold updateTenantUsage
    rw [if_pos hz]

/-- C6 witness: the theorem at the empty datastore with deltas `(1,0,0)` then
`(0,2,0)`, 100 seconds apart (one coalesced entry), 400 seconds apart (two
entries), and an all-zero delta (no-op). -/
theorem C6_witness :
    lookupD (updateTenantUsage (updateTenantUsage emptyDS 0 ⟨1, 0, 0, 0⟩ "t") 100
        ⟨0, 2, 0, 0⟩ "t").tenantUsage "t" [] = [⟨1, 2, 0, 0⟩] ∧
    lookupD (updateTenantUsage (updateTenantUsage emptyDS 0 ⟨1, 0, 0, 0⟩ "t") 400
        ⟨0, 2, 0, 0⟩ "t").tenantUsage "t" [] = [⟨1, 0, 0, 0⟩, ⟨1, 2, 0, 400⟩] ∧
    updateTenantUsage emptyDS 7 ⟨0, 0, 0, 0⟩ "t" = emptyDS := by
  have hc := C6_usage_coalescing emptyDS "t" ⟨1, 0, 0, 0⟩ ⟨0, 2, 0, 0⟩ 0 100
    (by decide) (by decide) (by decide)
  have hs := C6_usage_coalescing emptyDS "t" ⟨1, 0, 0, 0⟩ ⟨0, 2, 0, 0⟩ 0 400
    (by decide) (by decide) (by decide)
  refine ⟨?_, ?_, ?_⟩
  · rw [hc.1 (by decide)]; decide
  · rw [hs.2.1 (by decide)]; decide
  · exact hs.2.2 emptyDS 7 ⟨0, 0, 0, 0⟩ (by decide)

theorem sorted_take_drop_countP (l : List CiaoUsage) (c : Int)
    (hs : l.Pairwise fun a b => a.timestamp ≤ b.timestamp) :
    l.take (l.countP fun u => decide (c > u.timestamp)) =
      l.filter (fun u => decide (c > u.timestamp)) ∧
    l.drop (l.countP fun u => decide (c > u.timestamp)) =
      l.filter (fun u => decide (c ≤ u.timestamp)) := by
  induction l with
  | nil => simp
  | cons x xs ih =>
    rcases List.pairwise_cons.mp hs with ⟨hx, hxs⟩
    obtain ⟨ih1, ih2⟩ := ih hxs
    by_cases h : c > x.timestamp
    · have hc : (decide (c > x.timestamp)) = true := by simp [h]
      have hc2 : (decide (c ≤ x.timestamp)) = false := by
        simp only [decide_eq_false_iff_not]
        omega
      constructor
      · rw [List.countP_cons, List.filter_cons, hc, if_pos rfl, if_pos rfl,
          List.take_succ_cons, ih1]
      · rw [List.countP_cons, List.filter_cons, hc, hc2, if_pos rfl, if_neg (by decide),
          List.drop_succ_cons, ih2]
    · have hc : (decide (c > x.timestamp)) = false := by
        simp only [decide_eq_false_iff_not]
        omega
      have hc2 : (decide (c ≤ x.timestamp)) = true := by
        simp only [decide_eq_true_eq]
        omega
      have hall : ∀ u ∈ xs, ¬ ((fun u => decide (c > u.timestamp)) u = true) := by
        intro u hu
        have := hx u hu
        simp
        omega
      have hcnt : (xs.countP fun u => decide (c > u.timestamp)) = 0 :=
        List.countP_eq_zero.mpr hall
      have hfnil : (xs.filter fun u => decide (c > u.timestamp)) = [] :=
        List.filter_eq_nil_iff.mpr hall
      have hfself : ((x :: xs).filter fun u => decide (c ≤ u.timestamp)) = x :: xs := by
        rw [List.filter_eq_self]
        intro u hu
        rcases List.mem_cons.mp hu with rfl | hu2
        · exact hc2
        · have := hx u hu2
          simp
          omega
      constructor
      · rw [List.countP_cons, List.filter_cons, hc, if_neg (by decide), if_neg (by decide),
          Nat.add_zero, hcnt, hfnil]
        rfl
      · rw [List.countP_cons, hc, if_neg (by decide), Nat.add_zero, hcnt, hfself]
        rfl

theorem slice_eq_filter (l : List CiaoUsage) (s e : Int)
    (hs : l.Pairwise fun a b => a.timestamp ≤ b.timestamp)
    (hse : s ≤ e) :
    (l.take (l.countP fun u => decide (e > u.timestamp))).drop
        (l.countP fun u => decide (s > u.timestamp)) =
      l.filter (fun u => decide (s ≤ u.timestamp) && decide (u.timestamp < e)) := by
  rw [(sorted_take_drop_countP l e hs).1]
  have hsub : (l.countP fun u => decide (s > u.timestamp)) =
      ((l.filter fun u => decide (e > u.timestamp)).countP fun u => decide (s > u.timestamp)) := by
    rw [List.countP_filter]
    refine (List.countP_congr ?_).symm
    intro u _
    constructor
    · intro hb
      simp at hb ⊢
      omega
    · intro hb
      simp at hb ⊢
      omega
  rw [hsub]
  have hsorted2 : (l.filter fun u => decide (e > u.timestamp)).Pairwise
      (fun a b => a.timestamp ≤ b.timestamp) := hs.filter _
  rw [(sorted_take_drop_countP _ s hsorted2).2]
  rw [List.filter_filter]


theorem sorted_headD_le (l : List CiaoUsage) (d : CiaoUsage)
    (hs : l.Pairwise fun a b => a.timestamp ≤ b.timestamp) :
    ∀ u ∈ l, (l.headD d).timestamp ≤ u.timestamp := by
  cases l with
  | nil => intro u hu; cases hu
  | cons x xs =>
    intro u hu
    rcases List.mem_cons.mp hu with rfl | hu2
    · exact le_refl _
    · exact (List.pairwise_cons.mp hs).1 u hu2

theorem sorted_le_getLastD :
    ∀ (l : List CiaoUsage) (d : CiaoUsage),
      l.Pairwise (fun a b => a.timestamp ≤ b.timestamp) →
      ∀ u ∈ l, u.timestamp ≤ (l.getLastD d).timestamp
  | [], _, _, u, hu => absurd hu (by simp)
  | [x], _, _, u, hu => by
    rcases List.mem_cons.mp hu with rfl | hu2
    · exact le_refl _
    · cases hu2
  | x :: y :: tl, d, hs, u, hu => by
    rcases List.pairwise_cons.mp hs with ⟨hx, hxs⟩
    have hgl : (x :: y :: tl).getLastD d = (y :: tl).getLastD d := by
      rw [List.getLastD_eq_getLast?, List.getLastD_eq_getLast?, List.getLast?_cons_cons]
    rw [hgl]
    rcases List.mem_cons.mp hu with rfl | hu2
    · have hmem : (y :: tl).getLastD d ∈ y :: tl := by
        rw [List.getLastD_eq_getLast?]
        cases hq : (y :: tl).getLast? with
        | none => simp at hq
        | some a => simpa using List.mem_of_mem_getLast? hq
      exact hx _ hmem
    · exact sorted_le_getLastD (y :: tl) d hxs u hu2


/-! ## Claim C7 -/

/-- C7 counterexample: for the tenant of `c7DS`, whose single usage sample is
timestamped exactly at the query's upper bound (start 5 ≤ 10 ≤ end 10), the
claim demands the sample be returned (both bounds inclusive), but
`GetTenantUsage` counts via the strict `end.After(u.Timestamp)` and returns
the empty slice. -/
theorem C7_counterexample_end_exclusive :
    getTenantUsage c7DS "t" 5 10 = some [] ∧
    lookupD c7DS.tenantUsage "t" [] = [⟨0, 0, 0, 10⟩] ∧
    ((5 : Int) ≤ 10 ∧ (10 : Int) ≤ 10) := by decide

/-- C7 (amended): for every tenant with a time-ascending usage history and
`start ≤ end`, `GetTenantUsage` returns exactly the contiguous sub-sequence
of samples whose timestamps `t` satisfy `start ≤ t < end` — lower bound
inclusive, upper bound *exclusive* — in stored order. -/
theorem C7_getTenantUsage (ds : DS) (tid : String) (s e : Int)
    (hs : (lookupD ds.tenantUsage tid []).Pairwise fun a b => a.timestamp ≤ b.timestamp)
    (hse : s ≤ e) :
    getTenantUsage ds tid s e =
      some ((lookupD ds.tenantUsage tid []).filter
        fun u => decide (s ≤ u.timestamp) && decide (u.timestamp < e)) := by
  unfold getTenantUsage
  set l := lookupD ds.tenantUsage tid [] with hl
  by_cases h0 : l.length = 0
  · rw [if_pos h0]
    rw [List.length_eq_zero.mp h0]
    rfl
  · rw [if_neg h0]
    by_cases hg : (l.headD ⟨0, 0, 0, 0⟩).timestamp > e ∨ s > (l.getLastD ⟨0, 0, 0, 0⟩).timestamp
    · rw [if_pos hg]
      congr 1
      symm
      rw [List.filter_eq_nil_iff]
      intro u hu
      simp only [Bool.and_eq_true, decide_eq_true_eq, not_and]
      intro hsu
      rcases hg with hg1 | hg2
      · have hh := sorted_headD_le l ⟨0, 0, 0, 0⟩ hs u hu
        omega
      · have hlast := sorted_le_getLastD l ⟨0, 0, 0, 0⟩ hs u hu
        omega
    · rw [if_neg hg]
      have hmono : (l.countP fun u => decide (s > u.timestamp)) ≤
          (l.countP fun u => decide (e > u.timestamp)) := by
        refine List.countP_mono_left ?_
        intro u _ hp
        simp only [decide_eq_true_eq] at hp ⊢
        omega
      rw [if_pos hmono]
      congr 1
      exact slice_eq_filter l s e hs hse

/-- C7 witness: the amended theorem on the three-sample ascending history of
`c7wDS` with the window `[0, 800)`: the first two samples are returned. -/
theorem C7_witness :
    getTenantUsage c7wDS "t" 0 800 = some [⟨1, 1, 1, 0⟩, ⟨2, 2, 2, 400⟩] := by
  have h := C7_getTenantUsage c7wDS "t" 0 800 (by decide) (by decide)
  rw [h]
  decide

/-! ## Lemma library: allocator scan and probes -/

theorem scan_no_match (net : List (Nat × List (Nat × Bool))) (subs : List Nat) (init : Nat)
    (h : ∀ k ∈ subs, ¬ sizeA (lookupD net k []) < 253) :
    subs.foldl (fun acc k => if sizeA (lookupD net k []) < 253 then k % 65536 else acc) init
      = init := by
  induction subs generalizing init with
  | nil => rfl
  | cons a rest ih =>
    rw [List.foldl_cons, if_neg (h a (List.mem_cons_self a rest))]
    exact ih init fun k hk => h k (List.mem_cons_of_mem a hk)

theorem scan_match (net : List (Nat × List (Nat × Bool))) (subs : List Nat) (init : Nat)
    (h : ∃ k ∈ subs, sizeA (lookupD net k []) < 253) :
    ∃ k ∈ subs, sizeA (lookupD net k []) < 253 ∧
      subs.foldl (fun acc k => if sizeA (lookupD net k []) < 253 then k % 65536 else acc) init
        = k % 65536 := by
  induction subs generalizing init with
  | nil =>
    obtain ⟨k, hk, _⟩ := h
    cases hk
  | cons a rest ih =>
    by_cases hrest : ∃ k ∈ rest, sizeA (lookupD net k []) < 253
    · obtain ⟨k, hk, hsz, heq⟩ := ih _ hrest
      exact ⟨k, List.mem_cons_of_mem a hk, hsz, by rw [List.foldl_cons]; exact heq⟩
    · have hnone : ∀ k ∈ rest, ¬ sizeA (lookupD net k []) < 253 := by
        intro k hk hlt
        exact hrest ⟨k, hk, hlt⟩
      obtain ⟨k, hk, hsz⟩ := h
      rcases List.mem_cons.mp hk with rfl | hk2
      · refine ⟨k, List.mem_cons_self k rest, hsz, ?_⟩
        rw [List.foldl_cons, if_pos hsz]
        exact scan_no_match net rest _ hnone
      · exact absurd ⟨k, hk2, hsz⟩ hrest

theorem eraseA_length_le {κ α : Type} [DecidableEq κ] (m : List (κ × α)) (k : κ) :
    (eraseA m k).length ≤ m.length := by
  induction m with
  | nil => simp [eraseA]
  | cons p rest ih =>
    obtain ⟨k0, v0⟩ := p
    by_cases h0 : k0 = k <;> simp [eraseA, h0] <;> omega

theorem eraseA_length_lt {κ α : Type} [DecidableEq κ] (m : List (κ × α)) (k : κ)
    (h : (lookupA m k).isSome = true) : (eraseA m k).length < m.length := by
  induction m with
  | nil => simp [lookupA] at h
  | cons p rest ih =>
    obtain ⟨k0, v0⟩ := p
    by_cases h0 : k0 = k
    · have := eraseA_length_le rest k
      simp [eraseA, h0]
      omega
    · rw [lookupA_cons, if_neg h0] at h
      have := ih h
      simp [eraseA, h0]
      omega

theorem nodup_keys_length {κ α : Type} [DecidableEq κ] :
    ∀ (keys : List κ) (m : List (κ × α)), keys.Nodup →
      (∀ k ∈ keys, (lookupA m k).isSome = true) → keys.length ≤ m.length
  | [], _, _, _ => Nat.zero_le _
  | k :: ks, m, hnd, hall => by
    rcases List.nodup_cons.mp hnd with ⟨hknotin, hnd2⟩
    have h1 : (lookupA m k).isSome = true := hall k (List.mem_cons_self k ks)
    have h2 : ∀ k' ∈ ks, (lookupA (eraseA m k) k').isSome = true := by
      intro k' hk'
      rw [lookupA_eraseA_ne m k k' (fun he => hknotin (he ▸ hk'))]
      exact hall k' (List.mem_cons_of_mem k hk')
    have h3 := nodup_keys_length ks (eraseA m k) hnd2 h2
    have h4 := eraseA_length_lt m k h1
    simp only [List.length_cons]
    omega

theorem probeHostAux_isSome_of_free (hosts : List (Nat × Bool)) :
    ∀ (fuel r j : Nat), r ≤ j → j ≤ 255 → j < r + fuel →
      lookupD hosts j false = false → (probeHostAux hosts fuel r).isSome = true
  | 0, r, j, hrj, _, hfuel, _ => by omega
  | fuel + 1, r, j, hrj, hj, hfuel, hfree => by
    unfold probeHostAux
    by_cases hc : lookupD hosts r false = false
    · rw [if_pos hc]
      rfl
    · have hrne : r ≠ j := fun he => hc (he ▸ hfree)
      rw [if_neg hc, if_neg (by omega : ¬ 255 ≤ r)]
      exact probeHostAux_isSome_of_free hosts fuel (r + 1) j (by omega) hj (by omega) hfree

theorem probeHost_isSome_of_small (hosts : List (Nat × Bool)) (h : hosts.length < 253) :
    (probeHost hosts 2).isSome = true := by
  rcases Classical.em (∃ j, 2 ≤ j ∧ j ≤ 255 ∧ lookupD hosts j false = false) with hfree | hnone
  · obtain ⟨j, h1, h2, h3⟩ := hfree
    exact probeHostAux_isSome_of_free hosts 254 2 j h1 h2 (by omega) h3
  · exfalso
    push_neg at hnone
    have hall : ∀ k ∈ List.range' 2 254, (lookupA hosts k).isSome = true := by
      intro k hk
      rw [List.mem_range'_1] at hk
      have hx := hnone k (by omega) (by omega)
      cases hq : lookupA hosts k with
      | none =>
        rw [lookupD, hq] at hx
        simp at hx
      | some b => rfl
    have hlen := nodup_keys_length (List.range' 2 254) hosts (List.nodup_range' _ _) hall
    rw [List.length_range'] at hlen
    omega


/-- When the sorted-scan selects a nonzero subnet whose host map exists and
has a free slot, `allocCore` reuses it: no subnet is added and the address
encodes the selected subnet. -/
theorem allocCore_reuse (net : List (Nat × List (Nat × Bool))) (subs : List Nat)
    (allS : List (Nat × Bool)) (k2 : Nat) (hosts : List (Nat × Bool)) (rest : Nat)
    (hs0 : pickSubnet net (List.insertionSort (fun a b => a ≤ b) subs) = k2)
    (hne : k2 ≠ 0)
    (hhosts : lookupA net k2 = some hosts)
    (hrest : probeHost hosts 2 = some rest) :
    allocCore ⟨net, subs, allS⟩ =
      (.ok ⟨172, k2 / 256, k2 % 256, rest⟩,
        ⟨insertA net k2 (insertA hosts rest true),
          List.insertionSort (fun a b => a ≤ b) subs, allS⟩) := by
  simp only [allocCore]
  rw [hs0, if_neg hne]
  unfold hostClaim
  simp only [hhosts, hrest]

/-! ## Claim C4 -/

/-- C4 (amended): whenever the tenant owns a subnet whose host *map* has
fewer than 253 entries (each entry counts, claimed or released), and the
tenant's subnet list is well formed (genuine nonzero 16-bit indices whose
host maps exist), `AllocateTenantIP` reuses one of the tenant's existing
subnets: it returns an address whose middle octets encode an already-owned
subnet, leaves the process-wide claimed-subnet set untouched and adds no
subnet to the tenant. -/
theorem C4_reuse (ds : DS) (tid : String) (t : Tenant) (k : Nat)
    (ht : lookupA ds.tenants tid = some t)
    (hk : k ∈ t.subnets) (hsz : sizeA (lookupD t.network k []) < 253)
    (hpos : ∀ j ∈ t.subnets, 0 < j ∧ j < 65536)
    (hsub : ∀ j ∈ t.subnets, (lookupA t.network j).isSome = true) :
    ∃ ip, (allocateTenantIP ds tid).1 = .ok ip ∧
      (ip.b1 * 256 + ip.b2) ∈ t.subnets ∧
      (allocateTenantIP ds tid).2.allSubnets = ds.allSubnets ∧
      (∃ t2, lookupA (allocateTenantIP ds tid).2.tenants tid = some t2 ∧
        t2.subnets = List.insertionSort (fun a b => a ≤ b) t.subnets) := by
  have hperm := List.perm_insertionSort (fun a b : Nat => a ≤ b) t.subnets
  obtain ⟨k2, hk2mem, hk2sz, hk2eq⟩ :=
    scan_match t.network (List.insertionSort (fun a b => a ≤ b) t.subnets) 0
      ⟨k, hperm.mem_iff.mpr hk, hsz⟩
  have hk2sub : k2 ∈ t.subnets := hperm.mem_iff.mp hk2mem
  have hk2b := hpos k2 hk2sub
  have hk2mod : k2 % 65536 = k2 := Nat.mod_eq_of_lt hk2b.2
  have hs0 : pickSubnet t.network (List.insertionSort (fun a b => a ≤ b) t.subnets) = k2 := by
    rw [pickSubnet, hk2eq, hk2mod]
  have hne : k2 ≠ 0 := by omega
  obtain ⟨hosts, hhosts⟩ := Option.isSome_iff_exists.mp (hsub k2 hk2sub)
  have hhlen : hosts.length < 253 := by
    have hx : lookupD t.network k2 [] = hosts := by rw [lookupD, hhosts]; rfl
    rw [sizeA, hx] at hk2sz
    exact hk2sz
  obtain ⟨rest, hrest⟩ := Option.isSome_iff_exists.mp (probeHost_isSome_of_small hosts hhlen)
  have hcore := allocCore_reuse t.network t.subnets ds.allSubnets k2 hosts rest hs0 hne hhosts hrest
  have hb : k2 / 256 * 256 + k2 % 256 = k2 := by omega
  refine ⟨⟨172, k2 / 256, k2 % 256, rest⟩, ?_, ?_, ?_, ?_⟩
  · simp only [allocateTenantIP, ht, hcore]
  · show k2 / 256 * 256 + k2 % 256 ∈ t.subnets
    rw [hb]
    exact hk2sub
  · simp only [allocateTenantIP, ht, hcore]
  · refine ⟨{ t with
          network := insertA t.network k2 (insertA hosts rest true),
          subnets := List.insertionSort (fun a b => a ≤ b) t.subnets }, ?_, rfl⟩
    simp only [allocateTenantIP, ht, hcore]
    exact lookupA_insertA_self _ _ _

set_option maxRecDepth 4000 in
/-- C4 counterexample: in `c4DS`, subnet 4096's host map holds 253 entries of
which only 252 are claimed (host 2 was released), so the claim says the next
allocation must reuse subnet 4096; the scan tests `len(network[k]) < 253` on
the map size, skips it, and claims the brand-new subnet 4097 from the
process-wide set, returning 172.16.1.2. -/
theorem C4_counterexample_released_not_reused :
    (c4hosts.countP fun p => p.2) = 252 ∧ c4hosts.length = 253 ∧
    c4Tenant.subnets = [4096] ∧
    (allocateTenantIP c4DS "t1").1 = .ok ⟨172, 16, 1, 2⟩ ∧
    lookupA c4DS.allSubnets 4097 = none ∧
    lookupA (allocateTenantIP c4DS "t1").2.allSubnets 4097 = some true := by decide

/-- C4 witness: the amended theorem at `c4wDS`, whose subnet 4096 holds one
claimed host: allocation reuses it and the claimed-subnet set is unchanged. -/
theorem C4_witness :
    (allocateTenantIP c4wDS "t1").2.allSubnets = c4wDS.allSubnets ∧
    (∃ ip, (allocateTenantIP c4wDS "t1").1 = .ok ip ∧
      (ip.b1 * 256 + ip.b2) ∈ c4wTenant.subnets) := by
  obtain ⟨ip, h1, h2, h3, h4⟩ := C4_reuse c4wDS "t1" c4wTenant 4096 (by decide) (by decide)
    (by decide) (by decide) (by decide)
  exact ⟨h3, ip, h1, h2⟩

/-! ## Lemma library: the allocator's normal form under repeated allocation -/

theorem partHosts_length (r : Nat) : (partHosts r).length = r := by
  unfold partHosts
  rw [List.length_map, List.length_range']

theorem partHosts_lookup (r j : Nat) :
    lookupA (partHosts r) j = if 2 ≤ j ∧ j < 2 + r then some true else none :=
  lookupA_map_range' (fun _ => true) 2 r j

theorem partHosts_succ (r : Nat) : partHosts r ++ [(2 + r, true)] = partHosts (r + 1) := by
  unfold partHosts
  rw [List.range'_concat, List.map_append, List.map_cons, List.map_nil, one_mul]

theorem nfSubnets_sorted (n : Nat) :
    List.Sorted (fun a b : Nat => a ≤ b) (nfSubnets n) := by
  unfold nfSubnets
  by_cases h : n % 253 = 0
  · rw [if_pos h, List.append_nil]
    exact List.pairwise_le_range' 4096 (n / 253)
  · rw [if_neg h]
    refine List.pairwise_append.mpr
      ⟨List.pairwise_le_range' 4096 (n / 253), List.pairwise_singleton _ _, ?_⟩
    intro a ha b hb
    rw [List.mem_range'_1] at ha
    rw [List.mem_singleton] at hb
    omega

theorem nfState_r0 (n : Nat) (hr : n % 253 = 0) :
    nfState n = ⟨(List.range' 4096 (n / 253)).map (fun s => (s, partHosts 253)),
      List.range' 4096 (n / 253),
      (List.range' 4096 (n / 253)).map fun s => (s, true)⟩ := by
  simp [nfState, nfSubnets, hr]

theorem nfState_rpos (n : Nat) (hr : n % 253 ≠ 0) :
    nfState n = ⟨(List.range' 4096 (n / 253)).map (fun s => (s, partHosts 253)) ++
        [(4096 + n / 253, partHosts (n % 253))],
      List.range' 4096 (n / 253) ++ [4096 + n / 253],
      ((List.range' 4096 (n / 253)).map fun s => (s, true)) ++ [(4096 + n / 253, true)]⟩ := by
  simp [nfState, nfSubnets, hr]

theorem nfState_succ_carry (n : Nat) (hr : n % 253 = 0) :
    nfState (n + 1) = ⟨(List.range' 4096 (n / 253)).map (fun s => (s, partHosts 253)) ++
        [(4096 + n / 253, partHosts 1)],
      List.range' 4096 (n / 253) ++ [4096 + n / 253],
      ((List.range' 4096 (n / 253)).map fun s => (s, true)) ++ [(4096 + n / 253, true)]⟩ := by
  have h1 : (n + 1) / 253 = n / 253 := by omega
  have h2 : (n + 1) % 253 = 1 := by omega
  rw [nfState_rpos (n + 1) (by omega), h1, h2]

theorem nfState_succ_pos (n : Nat) (_hr : n % 253 ≠ 0) :
    nfState (n + 1) = ⟨(List.range' 4096 (n / 253)).map (fun s => (s, partHosts 253)) ++
        [(4096 + n / 253, partHosts (n % 253 + 1))],
      List.range' 4096 (n / 253) ++ [4096 + n / 253],
      ((List.range' 4096 (n / 253)).map fun s => (s, true)) ++ [(4096 + n / 253, true)]⟩ := by
  by_cases h252 : n % 253 = 252
  · have h1 : (n + 1) / 253 = n / 253 + 1 := by omega
    have h2 : (n + 1) % 253 = 0 := by omega
    rw [nfState_r0 (n + 1) h2, h1, h252]
    rw [List.range'_concat, List.map_append, List.map_cons, List.map_nil, one_mul,
      List.map_append, List.map_cons, List.map_nil]
  · have h1 : (n + 1) / 253 = n / 253 := by omega
    have h2 : (n + 1) % 253 = n % 253 + 1 := by omega
    rw [nfState_rpos (n + 1) (by omega), h1, h2]


theorem nf_network_lookup_full (n k : Nat) (h1 : 4096 ≤ k) (h2 : k < 4096 + n / 253) :
    lookupA (nfState n).network k = some (partHosts 253) := by
  unfold nfState
  rw [lookupA_append, lookupA_map_range' (fun _ => partHosts 253) 4096 (n / 253) k,
    if_pos ⟨h1, h2⟩]
  rfl

theorem nf_network_lookup_part (n : Nat) (hr : n % 253 ≠ 0) :
    lookupA (nfState n).network (4096 + n / 253) = some (partHosts (n % 253)) := by
  rw [nfState_rpos n hr]
  rw [lookupA_append, lookupA_map_range' (fun _ => partHosts 253) 4096 (n / 253) _,
    if_neg (by omega)]
  simp [lookupA]

theorem nf_network_lookup_top (n : Nat) (hr : n % 253 = 0) :
    lookupA (nfState n).network (4096 + n / 253) = none := by
  rw [nfState_r0 n hr]
  rw [show ((⟨(List.range' 4096 (n / 253)).map (fun s => (s, partHosts 253)),
      List.range' 4096 (n / 253),
      (List.range' 4096 (n / 253)).map fun s => (s, true)⟩ : TNet)).network
    = (List.range' 4096 (n / 253)).map (fun s => (s, partHosts 253)) from rfl]
  rw [lookupA_map_range' (fun _ => partHosts 253) 4096 (n / 253) _, if_neg (by omega)]

theorem nf_allSubnets_lookup (n k : Nat) :
    lookupA (nfState n).allSubnets k =
      if k ∈ nfSubnets n then some true else none := by
  have hmap : (nfState n).allSubnets = (nfSubnets n).map fun s => (s, true) := rfl
  rw [hmap]
  unfold nfSubnets
  by_cases hr : n % 253 = 0
  · rw [if_pos hr, List.append_nil,
      lookupA_map_range' (fun _ => true) 4096 (n / 253) k]
    by_cases hin : k ∈ List.range' 4096 (n / 253)
    · rw [List.mem_range'_1] at hin
      rw [if_pos hin, if_pos (by rw [List.mem_range'_1]; exact hin)]
    · rw [List.mem_range'_1] at hin
      rw [if_neg hin, if_neg (by rw [List.mem_range'_1]; exact hin)]
  · rw [if_neg hr]
    have hconc : List.range' 4096 (n / 253) ++ [4096 + n / 253]
        = List.range' 4096 (n / 253 + 1) := by
      rw [List.range'_concat, one_mul]
    rw [hconc, lookupA_map_range' (fun _ => true) 4096 (n / 253 + 1) k]
    by_cases hin : 4096 ≤ k ∧ k < 4096 + (n / 253 + 1)
    · rw [if_pos hin, if_pos (by rw [List.mem_range'_1]; omega)]
    · rw [if_neg hin, if_neg (by rw [List.mem_range'_1]; omega)]

theorem nf_pick_r0 (n : Nat) (hr : n % 253 = 0) :
    pickSubnet (nfState n).network (nfSubnets n) = 0 := by
  unfold pickSubnet
  apply scan_no_match
  intro k hk
  unfold nfSubnets at hk
  rw [if_pos hr, List.append_nil, List.mem_range'_1] at hk
  rw [lookupD, nf_network_lookup_full n k hk.1 hk.2]
  simp [sizeA, partHosts_length]

theorem nf_pick_pos (n : Nat) (hn : n < 253 * 4096) (hr : n % 253 ≠ 0) :
    pickSubnet (nfState n).network (nfSubnets n) = 4096 + n / 253 := by
  unfold pickSubnet nfSubnets
  rw [if_neg hr, List.foldl_append]
  rw [scan_no_match (nfState n).network (List.range' 4096 (n / 253)) 0 ?hfull]
  case hfull =>
    intro k hk
    rw [List.mem_range'_1] at hk
    rw [lookupD, nf_network_lookup_full n k hk.1 hk.2]
    simp [sizeA, partHosts_length]
  rw [List.foldl_cons, List.foldl_nil]
  rw [lookupD, nf_network_lookup_part n hr]
  rw [if_pos (by simp [sizeA, partHosts_length]; omega)]
  have hq : n / 253 < 4096 := by omega
  exact Nat.mod_eq_of_lt (by omega)


theorem probeSubnetAux_finds (allS : List (Nat × Bool)) (t : Nat)
    (hfree : lookupD allS t false = false) (ht81 : t ≤ 8191) :
    ∀ (fuel i : Nat), i ≤ t → t < i + fuel →
      (∀ j, i ≤ j → j < t → lookupD allS j false = true) →
      probeSubnetAux allS fuel i = some t
  | 0, i, hit, hfuel, _ => by omega
  | fuel + 1, i, hit, hfuel, hclaimed => by
    unfold probeSubnetAux
    by_cases hc : i = t
    · subst hc
      rw [if_pos hfree]
    · have hcl : lookupD allS i false = true := hclaimed i (le_refl _) (by omega)
      rw [if_neg (by simp [hcl]), if_neg (by omega : ¬ 8191 ≤ i)]
      exact probeSubnetAux_finds allS t hfree ht81 fuel (i + 1) (by omega) (by omega)
        fun j h1 h2 => hclaimed j (by omega) h2

theorem probeSubnetAux_none (allS : List (Nat × Bool))
    (hall : ∀ j, 4096 ≤ j → j ≤ 8191 → lookupD allS j false = true) :
    ∀ (fuel i : Nat), 4096 ≤ i → i ≤ 8191 → probeSubnetAux allS fuel i = none
  | 0, _, _, _ => rfl
  | fuel + 1, i, h1, h2 => by
    unfold probeSubnetAux
    rw [if_neg (by simp [hall i h1 h2])]
    by_cases hc : 8191 ≤ i
    · rw [if_pos hc]
    · rw [if_neg hc]
      exact probeSubnetAux_none allS hall fuel (i + 1) (by omega) (by omega)

theorem nf_probeSubnet (n : Nat) (hn : n < 253 * 4096) (hr : n % 253 = 0) :
    probeSubnet (nfState n).allSubnets 4096 = some (4096 + n / 253) := by
  have hq : n / 253 < 4096 := by omega
  unfold probeSubnet
  refine probeSubnetAux_finds (nfState n).allSubnets (4096 + n / 253) ?_ (by omega)
    (8192 - 4096) 4096 (by omega) (by omega) ?_
  · rw [lookupD, nf_allSubnets_lookup n (4096 + n / 253), if_neg ?_]
    · rfl
    · unfold nfSubnets
      rw [if_pos hr, List.append_nil, List.mem_range'_1]
      omega
  · intro j hj1 hj2
    rw [lookupD, nf_allSubnets_lookup n j, if_pos ?_]
    · rfl
    · unfold nfSubnets
      rw [if_pos hr, List.append_nil, List.mem_range'_1]
      omega

theorem probeHostAux_parts (r : Nat) (hr : r ≤ 252) :
    ∀ (fuel j : Nat), 2 ≤ j → j ≤ 2 + r → 2 + r < j + fuel →
      probeHostAux (partHosts r) fuel j = some (2 + r)
  | 0, j, _, hj, hf => by omega
  | fuel + 1, j, h2, hj, hf => by
    unfold probeHostAux
    by_cases hc : j = 2 + r
    · subst hc
      rw [if_pos (by rw [lookupD, partHosts_lookup, if_neg (by omega)]; rfl)]
    · have hcl : lookupD (partHosts r) j false = true := by
        rw [lookupD, partHosts_lookup, if_pos (by omega)]
        rfl
      rw [if_neg (by simp [hcl]), if_neg (by omega : ¬ 255 ≤ j)]
      exact probeHostAux_parts r hr fuel (j + 1) (by omega) (by omega) (by omega)

theorem nf_probeHost (r : Nat) (hr : r ≤ 252) :
    probeHost (partHosts r) 2 = some (2 + r) := by
  unfold probeHost
  exact probeHostAux_parts r hr (256 - 2) 2 (le_refl _) (by omega) (by omega)


theorem allocCore_nf_pos (n : Nat) (hn : n < 253 * 4096) (hr : n % 253 ≠ 0) :
    allocCore (nfState n) = (.ok (addrOf n), nfState (n + 1)) := by
  have hq : n / 253 < 4096 := by omega
  have hrlt : n % 253 < 253 := by omega
  have hsort : List.insertionSort (fun a b : Nat => a ≤ b) (nfState n).subnets = nfSubnets n :=
    List.Sorted.insertionSort_eq (nfSubnets_sorted n)
  have hnetview : (nfState n).network =
      (List.range' 4096 (n / 253)).map (fun s => (s, partHosts 253)) ++
        [(4096 + n / 253, partHosts (n % 253))] := by
    rw [nfState_rpos n hr]
  have hallview : (nfState n).allSubnets =
      ((List.range' 4096 (n / 253)).map fun s => (s, true)) ++ [(4096 + n / 253, true)] := by
    rw [nfState_rpos n hr]
  have hsubview : nfSubnets n = List.range' 4096 (n / 253) ++ [4096 + n / 253] := by
    unfold nfSubnets
    rw [if_neg hr]
  have hins : insertA (partHosts (n % 253)) (2 + n % 253) true = partHosts (n % 253 + 1) := by
    rw [insertA_of_lookupA_none _ _ _ (by rw [partHosts_lookup, if_neg (by omega)])]
    exact partHosts_succ (n % 253)
  have hnet : insertA (nfState n).network (4096 + n / 253) (partHosts (n % 253 + 1)) =
      (List.range' 4096 (n / 253)).map (fun s => (s, partHosts 253)) ++
        [(4096 + n / 253, partHosts (n % 253 + 1))] := by
    rw [hnetview,
      insertA_append_of_lookupA_none _ _ _ _
        (by rw [lookupA_map_range' (fun _ => partHosts 253) 4096 (n / 253) _, if_neg (by omega)])]
    simp [insertA]
  simp only [allocCore]
  rw [hsort, nf_pick_pos n hn hr, if_neg (by omega)]
  unfold hostClaim
  simp only [nf_network_lookup_part n hr, nf_probeHost (n % 253) (by omega)]
  rw [Prod.mk.injEq]
  constructor
  · rfl
  · rw [nfState_succ_pos n hr, TNet.mk.injEq]
    refine ⟨?_, ?_, ?_⟩
    · rw [hins, hnet]
    · exact hsubview
    · rw [hallview]

theorem allocCore_nf_r0 (n : Nat) (hn : n < 253 * 4096) (hr : n % 253 = 0) :
    allocCore (nfState n) = (.ok (addrOf n), nfState (n + 1)) := by
  have hq : n / 253 < 4096 := by omega
  have hsort : List.insertionSort (fun a b : Nat => a ≤ b) (nfState n).subnets = nfSubnets n :=
    List.Sorted.insertionSort_eq (nfSubnets_sorted n)
  have hnetview : (nfState n).network =
      (List.range' 4096 (n / 253)).map fun s => (s, partHosts 253) := by
    rw [nfState_r0 n hr]
  have hallview : (nfState n).allSubnets =
      (List.range' 4096 (n / 253)).map fun s => (s, true) := by
    rw [nfState_r0 n hr]
  have hsubview : nfSubnets n = List.range' 4096 (n / 253) := by
    unfold nfSubnets
    rw [if_pos hr, List.append_nil]
  have hnet : insertA (insertA (nfState n).network (4096 + n / 253) [])
        (4096 + n / 253) (insertA [] 2 true) =
      ((List.range' 4096 (n / 253)).map fun s => (s, partHosts 253)) ++
        [(4096 + n / 253, partHosts 1)] := by
    rw [insertA_insertA_self, hnetview,
      insertA_of_lookupA_none _ _ _
        (by rw [lookupA_map_range' (fun _ => partHosts 253) 4096 (n / 253) _, if_neg (by omega)])]
    rfl
  have hall : insertA (nfState n).allSubnets (4096 + n / 253) true =
      ((List.range' 4096 (n / 253)).map fun s => (s, true)) ++ [(4096 + n / 253, true)] := by
    rw [hallview,
      insertA_of_lookupA_none _ _ _
        (by rw [lookupA_map_range' (fun _ => true) 4096 (n / 253) _, if_neg (by omega)])]
  simp only [allocCore]
  rw [hsort, nf_pick_r0 n hr, if_pos rfl, nf_probeSubnet n hn hr]
  unfold hostClaim
  simp only [lookupA_insertA_self]
  rw [show probeHost ([] : List (Nat × Bool)) 2 = some 2 from rfl]
  rw [Prod.mk.injEq]
  constructor
  · show ARes.ok ⟨172, (4096 + n / 253) / 256, (4096 + n / 253) % 256, 2⟩ = ARes.ok (addrOf n)
    unfold addrOf
    rw [hr]
  · rw [nfState_succ_carry n hr, TNet.mk.injEq]
    refine ⟨hnet, ?_, hall⟩
    rw [hsubview]


theorem allocCore_nf_cap :
    allocCore (nfState (253 * 4096)) = (.fail "Out of subnets", nfState (253 * 4096)) := by
  have hr : (253 * 4096) % 253 = 0 := by omega
  have hq : (253 * 4096) / 253 = 4096 := by omega
  have hsort : List.insertionSort (fun a b : Nat => a ≤ b) (nfState (253 * 4096)).subnets
      = nfSubnets (253 * 4096) :=
    List.Sorted.insertionSort_eq (nfSubnets_sorted (253 * 4096))
  have hnone : probeSubnet (nfState (253 * 4096)).allSubnets 4096 = none := by
    unfold probeSubnet
    refine probeSubnetAux_none _ ?_ _ _ (le_refl _) (by omega)
    intro j h1 h2
    rw [lookupD, nf_allSubnets_lookup _ j, if_pos ?_]
    · rfl
    · unfold nfSubnets
      rw [if_pos hr, List.append_nil, List.mem_range'_1, hq]
      omega
  simp only [allocCore]
  rw [hsort, nf_pick_r0 _ hr, if_pos rfl]
  simp only [hnone]
  rw [Prod.mk.injEq, TNet.mk.injEq]
  exact ⟨rfl, rfl, rfl, rfl⟩

theorem allocIter_eq_nf : ∀ n, n ≤ 253 * 4096 → allocIter n = nfState n
  | 0, _ => by decide
  | n + 1, h => by
    rw [show allocIter (n + 1) = (allocCore (allocIter n)).2 from rfl]
    rw [allocIter_eq_nf n (by omega)]
    by_cases hr : n % 253 = 0
    · rw [allocCore_nf_r0 n (by omega) hr]
    · rw [allocCore_nf_pos n (by omega) hr]

theorem allocNth_ok (n : Nat) (hn : n < 253 * 4096) : allocNth n = .ok (addrOf n) := by
  rw [allocNth, allocIter_eq_nf n (by omega)]
  by_cases hr : n % 253 = 0
  · rw [allocCore_nf_r0 n hn hr]
  · rw [allocCore_nf_pos n hn hr]

theorem allocNth_cap : allocNth (253 * 4096) = .fail "Out of subnets" := by
  rw [allocNth, allocIter_eq_nf _ (le_refl _), allocCore_nf_cap]

theorem addrOf_inj (m n : Nat) (hne : m ≠ n) : addrOf m ≠ addrOf n := by
  intro he
  have h1 : (4096 + m / 253) / 256 = (4096 + n / 253) / 256 := congrArg IP4.b1 he
  have h2 : (4096 + m / 253) % 256 = (4096 + n / 253) % 256 := congrArg IP4.b2 he
  have h3 : 2 + m % 253 = 2 + n % 253 := congrArg IP4.b3 he
  omega

/-! ## Claim C2 -/

/-- C2 counterexample: the claim's capacity constant is wrong.  After
7590 = 253×30 consecutive single-tenant allocations with no releases, the
allocator has *not* returned the out-of-subnets error: the 7591st call still
succeeds, handing out 172.16.30.2 from the 31st subnet — the probing range
16.0–31.255 holds 4096 subnets, not ≈30. -/
theorem C2_counterexample_no_exhaustion_at_7590 :
    253 * 30 = 7590 ∧ allocNth 7590 = .ok ⟨172, 16, 30, 2⟩ := by
  refine ⟨by norm_num, ?_⟩
  rw [allocNth_ok 7590 (by norm_num)]
  decide

/-- C2 (amended): for a single tenant repeatedly calling `AllocateTenantIP`
from a fresh state with no releases, the first 253×4096 = 1,036,288 calls all
succeed, the returned addresses are pairwise distinct (no silent wrap-around
or collision — call `n` gets subnet `4096 + n/253`, host `2 + n%253`), and
the very next call returns the `Out of subnets` error. -/
theorem C2_single_tenant_exhaustion :
    (∀ n, n < 253 * 4096 → allocNth n = .ok (addrOf n)) ∧
    (∀ m n, m ≠ n → addrOf m ≠ addrOf n) ∧
    allocNth (253 * 4096) = .fail "Out of subnets" :=
  ⟨allocNth_ok, addrOf_inj, allocNth_cap⟩

/-- C2 witness: the first call of the sequence yields 172.16.0.2, distinct
from the second call's address. -/
theorem C2_witness :
    allocNth 0 = .ok ⟨172, 16, 0, 2⟩ ∧ addrOf 0 ≠ addrOf 1 := by
  refine ⟨?_, C2_single_tenant_exhaustion.2.1 0 1 (by omega)⟩
  rw [C2_single_tenant_exhaustion.1 0 (by norm_num)]
  decide

end Ciao
